import Mathlib

/-!
Shallow embedding of the DLT record decoder of `dlt-rs`
(`src/crates/dlt_convert/src/lib.rs` and the near-identical copy in
`src/src/main.rs`) and theorems checking the natural-language specification
against it.

Modelling conventions:
* A Rust byte (`u8`) is `Fin 256`; a buffer (`&[u8]`) is `List Byte`.
  Slicing of a buffer is modelled with `List.take` / `List.drop`; the
  pointer-difference `data.as_ptr() - start.as_ptr()` (lib.rs line 44)
  becomes the difference of list lengths, since every step of the decoder
  only drops bytes from the front of the buffer.
* Machine arithmetic is `Nat` / `Int` with an explicit `% 2 ^ 32` or
  `% 2 ^ 64` wherever a Rust release build would wrap (a debug build would
  panic at the same spots; either way no well-formed result is produced).
* A fallible parse step returns `PRes`.  The Rust source returns `Option`
  and collapses every failure to `None`; `PRes.err` records which
  early-return site produced the `None`, labelled with the error taxonomy
  of the specification (TruncatedInput, InvalidMagic, UnsupportedByteOrder,
  PayloadLengthOutOfRange).  `PRes.panic` models a Rust panic: an
  out-of-bounds slice index (`&data[bytes..]` in `parse_extensions`,
  `split_at` in `parse_message`) or `Option::unwrap` on a `None`
  (the timestamp in `parse_storage_header`).
-/

namespace Dlt

/-- A Rust `u8`. -/
abbrev Byte := Fin 256

/-- The error taxonomy of the specification (section 7).  The Rust code
returns a bare `None` in all error cases; the constructor names which
early-return site fired. -/
inductive DecodeError where
  | truncatedInput
  | invalidMagic
  | unsupportedByteOrder
  | payloadLengthOutOfRange
deriving DecidableEq

/-- Result of a parse step: success, an early `return None` (tagged with its
cause), or a Rust panic. -/
inductive PRes (α : Type) where
  | ok : α → PRes α
  | err : DecodeError → PRes α
  | panic : PRes α
deriving DecidableEq

def PRes.bind {α β : Type} : PRes α → (α → PRes β) → PRes β
  | .ok a, f => f a
  | .err e, _ => .err e
  | .panic, _ => .panic

def PRes.map {α β : Type} (f : α → β) : PRes α → PRes β
  | .ok a => .ok (f a)
  | .err e => .err e
  | .panic => .panic

def PRes.isPanic {α : Type} : PRes α → Bool
  | .panic => true
  | _ => false

/-- Rust `slice::split_first_chunk::<n>`: `Some((first n bytes, rest))`, or
`None` (TruncatedInput) when fewer than `n` bytes remain.  Used through the
`?` operator in the source, so a failure is an early `return None`. -/
def split_first_chunk (n : Nat) (data : List Byte) : PRes (List Byte × List Byte) :=
  if n ≤ data.length then .ok (data.take n, data.drop n) else .err .truncatedInput

/-- Rust `u32::from_le_bytes` on a 4-byte chunk. -/
def u32_le : List Byte → Nat
  | [b0, b1, b2, b3] => b0.val + 256 * b1.val + 65536 * b2.val + 16777216 * b3.val
  | _ => 0

/-- Rust `u16::from_be_bytes` on a 2-byte chunk. -/
def u16_be : List Byte → Nat
  | [b0, b1] => 256 * b0.val + b1.val
  | _ => 0

/-- Reinterpret a `u32` bit pattern as an `i32` (Rust `as i32` / the
`i32::from_le_bytes` of the same four bytes). -/
def i32_of_u32 (w : Nat) : Int :=
  if w < 2 ^ 31 then (w : Int) else (w : Int) - 2 ^ 32

/-- Rust `as u32` cast of an `i32` value: reduce mod `2 ^ 32`. -/
def u32_of_int (v : Int) : Nat := (v % 2 ^ 32).toNat

/-- A `chrono::DateTime<Utc>` as produced by `DateTime::from_timestamp`:
whole seconds since the Unix epoch plus a nanosecond part. -/
structure Timestamp where
  secs : Int
  nsecs : Nat
deriving DecidableEq

/-- Modelled from chrono `DateTime::from_timestamp(secs, nsecs)` (an external
crate, not part of this repository): `None` iff the nanosecond argument is
out of range (valid values are `0 ..= 1_999_999_999`; values `≥ 10^9` encode
leap seconds).  chrono also rejects seconds outside roughly ±262000 years,
but every seconds value this decoder can produce lies in `[0, 2^32)`, far
inside that range, so the seconds check is omitted. -/
def from_timestamp (secs : Int) (nsecs : Nat) : Option Timestamp :=
  if nsecs < 2000000000 then some ⟨secs, nsecs⟩ else none

/-- Helper for `strip_null`: the Rust loop `for i in (0..slice.len()).rev()`,
entered here with the index one past the current probe.  `getD i 0` models
`slice[i]`; the index is always in bounds when called from `strip_null`. -/
def stripNullGo (slice : List Byte) : Nat → List Byte
  | 0 => slice
  | i + 1 => if slice.getD i 0 ≠ 0 then slice.take (i + 1) else stripNullGo slice i

/-- `strip_null` (lib.rs lines 234-242, identical copy in main.rs lines
171-179): drop trailing zero bytes; if every byte is zero the slice is
returned unchanged. -/
def strip_null (slice : List Byte) : List Byte :=
  stripNullGo slice slice.length

/-- `StorageHeader` (lib.rs lines 61-66).  `ecu` holds the bytes of
`strip_null(ecu_bytes)`; the lossy UTF-8 decoding (`String::from_utf8_lossy`)
is not modelled — both copies of the decoder apply the same function to the
same trimmed bytes, so equality of the trimmed bytes is what matters here. -/
structure StorageHeader where
  pattern : List Byte
  timestamp : Timestamp
  ecu : List Byte
deriving DecidableEq

/-- `parse_storage_header` (lib.rs lines 68-93, identical copy in main.rs
lines 68-93).  The `DateTime::from_timestamp(..).unwrap()` panics when
chrono rejects the nanosecond argument, which happens exactly when the
signed microseconds value is negative and not a multiple of 1000000. -/
def parse_storage_header (data : List Byte) : PRes (StorageHeader × List Byte) :=
  (split_first_chunk 4 data).bind fun (pattern_bytes, data) =>
  (split_first_chunk 4 data).bind fun (seconds_bytes, data) =>
  (split_first_chunk 4 data).bind fun (microseconds_bytes, data) =>
  (split_first_chunk 4 data).bind fun (ecu_bytes, data) =>
  let seconds := u32_le seconds_bytes
  let microseconds := i32_of_u32 (u32_le microseconds_bytes)
  match from_timestamp
      (((seconds + u32_of_int microseconds / 1000000) % 2 ^ 32 : Nat) : Int)
      (u32_of_int (microseconds.tmod 1000000 * 1000)) with
  | some ts =>
      .ok ({ pattern := pattern_bytes, timestamp := ts, ecu := strip_null ecu_bytes }, data)
  | none => .panic

/-- `StandardHeader` (lib.rs lines 95-100).  `len` is the `u16` value. -/
structure StandardHeader where
  htyp : Byte
  mcnt : Byte
  len : Nat
deriving DecidableEq

/-- `parse_standard_header` (lib.rs lines 102-117, identical copy in
main.rs). -/
def parse_standard_header (data : List Byte) : PRes (StandardHeader × List Byte) :=
  (split_first_chunk 1 data).bind fun (htyp_bytes, data) =>
  (split_first_chunk 1 data).bind fun (mcnt_bytes, data) =>
  (split_first_chunk 2 data).bind fun (len_bytes, data) =>
  .ok ({ htyp := htyp_bytes.headD 0, mcnt := mcnt_bytes.headD 0, len := u16_be len_bytes }, data)

/-- The byte count skipped by `parse_extensions`: 4 per set flag. -/
def ext_bytes (ecu_id session_id timestamp : Bool) : Nat :=
  (if ecu_id then 4 else 0) + (if session_id then 4 else 0) + (if timestamp then 4 else 0)

/-- `parse_extensions` (lib.rs lines 119-141, identical copy in main.rs;
the returned closure applied to its argument).  `&data[bytes..]` panics when
`bytes` exceeds the remaining length; otherwise nothing is decoded and the
cursor advances by `bytes`. -/
def parse_extensions (ecu_id session_id timestamp : Bool) (data : List Byte) :
    PRes (Unit × List Byte) :=
  let bytes := ext_bytes ecu_id session_id timestamp
  if bytes ≤ data.length then .ok ((), data.drop bytes) else .panic

/-- `LogTypeInfo` (lib.rs lines 174-183). -/
inductive LogTypeInfo where
  | Fatal
  | Error
  | Warn
  | Info
  | Debug
  | Verbose
  | Reserved
deriving DecidableEq

/-- `LogTypeInfo::from_raw` (lib.rs lines 186-196). -/
def LogTypeInfo.from_raw (data : Nat) : LogTypeInfo :=
  match data with
  | 1 => .Fatal
  | 2 => .Error
  | 3 => .Warn
  | 4 => .Info
  | 5 => .Debug
  | 6 => .Verbose
  | _ => .Reserved

/-- `MessageInfo` (lib.rs lines 151-158). -/
inductive MessageInfo where
  | Log : LogTypeInfo → MessageInfo
  | AppTrace
  | NwTrace
  | Control
  | Reserved
deriving DecidableEq

/-- `MessageInfo::from_raw` (lib.rs lines 160-172). -/
def MessageInfo.from_raw (ty data : Nat) : MessageInfo :=
  match ty with
  | 0 => .Log (LogTypeInfo.from_raw data)
  | 1 => .AppTrace
  | 2 => .NwTrace
  | 3 => .Control
  | _ => .Reserved

/-- `ExtendedHeader` of the library copy (lib.rs lines 143-149): the raw
`msin` byte is already classified into a `MessageInfo`. -/
structure ExtendedHeader where
  message_type : MessageInfo
  noar : Byte
  apid : List Byte
  ctid : List Byte
deriving DecidableEq

/-- `parse_extended_header` of the library copy (lib.rs lines 211-232).
The classification call is
`MessageInfo::from_raw((msin >> 1) & 0b111, (msin >> 4) & 0b1111)`. -/
def parse_extended_header (data : List Byte) : PRes (ExtendedHeader × List Byte) :=
  (split_first_chunk 1 data).bind fun (msin_bytes, data) =>
  (split_first_chunk 1 data).bind fun (noar_bytes, data) =>
  (split_first_chunk 4 data).bind fun (apid_bytes, data) =>
  (split_first_chunk 4 data).bind fun (ctid_bytes, data) =>
  let msin := msin_bytes.headD 0
  .ok ({ message_type := MessageInfo.from_raw ((msin.val >>> 1) &&& 7) ((msin.val >>> 4) &&& 15),
         noar := noar_bytes.headD 0,
         apid := strip_null apid_bytes,
         ctid := strip_null ctid_bytes }, data)

/-- `Message` of the library copy (lib.rs lines 4-10). -/
structure Message where
  storage_header : StorageHeader
  standard_header : StandardHeader
  extended_header : Option ExtendedHeader
  payload : List Byte
deriving DecidableEq

/-- The magic pattern checked at lib.rs line 17. -/
def magic_pattern : List Byte := [0x44, 0x4c, 0x54, 0x01]

/-- `parse_message` of the library copy (lib.rs lines 12-59).
`parsed_bytes` is the pointer difference of line 44, i.e. the number of
bytes consumed so far; `rest_bytes` is the `usize` expression
`standard_header.len as usize - parsed_bytes + 16` of line 46, which in a
release build wraps mod `2 ^ 64` (a debug build would already panic on the
underflow).  Both `split_at` calls (lines 42 and 48) panic when the
remaining buffer is shorter than requested. -/
def parse_message (data : List Byte) : PRes (Message × List Byte) :=
  let start := data
  (parse_storage_header data).bind fun (storage_header, data) =>
  if storage_header.pattern ≠ magic_pattern then .err .invalidMagic else
  (parse_standard_header data).bind fun (standard_header, data) =>
  if standard_header.htyp.val &&& 0x02 ≠ 0 then .err .unsupportedByteOrder else
  (parse_extensions (standard_header.htyp.val &&& 0x04 != 0)
      (standard_header.htyp.val &&& 0x08 != 0)
      (standard_header.htyp.val &&& 0x10 != 0) data).bind fun (_, data) =>
  (if standard_header.htyp.val &&& 0x01 != 0 then
      (parse_extended_header data).map fun (it, data) => ((some it : Option ExtendedHeader), data)
    else .ok ((none : Option ExtendedHeader), data)).bind fun (extended_header, data) =>
  if 6 ≤ data.length then
    let data := data.drop 6
    let parsed_bytes := start.length - data.length
    let rest_bytes := ((standard_header.len + 2 ^ 64 - parsed_bytes) % 2 ^ 64 + 16) % 2 ^ 64
    if rest_bytes ≤ data.length then
      .ok ({ storage_header := storage_header, standard_header := standard_header,
             extended_header := extended_header, payload := data.take rest_bytes },
           data.drop rest_bytes)
    else .panic
  else .panic

namespace Main

/-- `ExtendedHeader` of the main.rs copy (main.rs lines 143-149): stores the
raw `msin` byte instead of a classified `MessageInfo`. -/
structure ExtendedHeader where
  msin : Byte
  noar : Byte
  apid : List Byte
  ctid : List Byte
deriving DecidableEq

/-- `parse_extended_header` of the main.rs copy (main.rs lines 151-169). -/
def parse_extended_header (data : List Byte) : PRes (ExtendedHeader × List Byte) :=
  (split_first_chunk 1 data).bind fun (msin_bytes, data) =>
  (split_first_chunk 1 data).bind fun (noar_bytes, data) =>
  (split_first_chunk 4 data).bind fun (apid_bytes, data) =>
  (split_first_chunk 4 data).bind fun (ctid_bytes, data) =>
  .ok ({ msin := msin_bytes.headD 0,
         noar := noar_bytes.headD 0,
         apid := strip_null apid_bytes,
         ctid := strip_null ctid_bytes }, data)

/-- `Message` of the main.rs copy (main.rs lines 4-10). -/
structure Message where
  storage_header : StorageHeader
  standard_header : StandardHeader
  extended_header : Option ExtendedHeader
  payload : List Byte
deriving DecidableEq

/-- `parse_message` of the main.rs copy (main.rs lines 12-59); textually
identical to the library copy except that it uses main.rs's
`parse_extended_header`.  The sub-parsers `parse_storage_header`,
`parse_standard_header`, `parse_extensions` and `strip_null` are textually
identical in the two files and therefore shared with the embedding above. -/
def parse_message (data : List Byte) : PRes (Message × List Byte) :=
  let start := data
  (parse_storage_header data).bind fun (storage_header, data) =>
  if storage_header.pattern ≠ magic_pattern then .err .invalidMagic else
  (parse_standard_header data).bind fun (standard_header, data) =>
  if standard_header.htyp.val &&& 0x02 ≠ 0 then .err .unsupportedByteOrder else
  (parse_extensions (standard_header.htyp.val &&& 0x04 != 0)
      (standard_header.htyp.val &&& 0x08 != 0)
      (standard_header.htyp.val &&& 0x10 != 0) data).bind fun (_, data) =>
  (if standard_header.htyp.val &&& 0x01 != 0 then
      (parse_extended_header data).map fun (it, data) => ((some it : Option ExtendedHeader), data)
    else .ok ((none : Option ExtendedHeader), data)).bind fun (extended_header, data) =>
  if 6 ≤ data.length then
    let data := data.drop 6
    let parsed_bytes := start.length - data.length
    let rest_bytes := ((standard_header.len + 2 ^ 64 - parsed_bytes) % 2 ^ 64 + 16) % 2 ^ 64
    if rest_bytes ≤ data.length then
      .ok ({ storage_header := storage_header, standard_header := standard_header,
             extended_header := extended_header, payload := data.take rest_bytes },
           data.drop rest_bytes)
    else .panic
  else .panic

end Main

/-- Fuel-indexed driver loop of `main` (main.rs lines 190-211) run over the
library decoder: decode records until the buffer is empty; a failed decode
aborts the run (`.unwrap()` turns the `None` into a panic).  One successful
decode always consumes at least 26 bytes, so `fuel = data.length` (as used
by `decode_all`) can never run out; the fuel-exhaustion branch is
unreachable and exists only to make the recursion structural. -/
def decode_all_go : Nat → List Byte → PRes (List Message)
  | _, [] => .ok []
  | 0, _ => .panic
  | fuel + 1, data =>
    match parse_message data with
    | .ok (m, rest) => (decode_all_go fuel rest).map fun ms => m :: ms
    | _ => .panic

/-- The driver loop of main.rs over a whole buffer. -/
def decode_all (data : List Byte) : PRes (List Message) :=
  decode_all_go data.length data

end Dlt

/-! ### Basic facts about the parsing primitives -/

namespace Dlt

lemma split_first_chunk_of_le {n : Nat} {data : List Byte} (h : n ≤ data.length) :
    split_first_chunk n data = .ok (data.take n, data.drop n) :=
  if_pos h

lemma split_first_chunk_append {l : List Byte} (t : List Byte) {n : Nat} (h : l.length = n) :
    split_first_chunk n (l ++ t) = .ok (l, t) := by
  subst h
  rw [split_first_chunk_of_le (by simp)]
  rw [List.take_left, List.drop_left]

lemma split_first_chunk_short {n : Nat} {data : List Byte} (h : data.length < n) :
    split_first_chunk n data = .err .truncatedInput :=
  if_neg (by omega)

lemma u16_be_lt (l : List Byte) : u16_be l < 65536 := by
  rcases l with _ | ⟨b0, _ | ⟨b1, _ | ⟨c, t⟩⟩⟩ <;> simp only [u16_be] <;> omega

lemma u32_le_lt (l : List Byte) : u32_le l < 2 ^ 32 := by
  rcases l with _ | ⟨b0, _ | ⟨b1, _ | ⟨b2, _ | ⟨b3, _ | ⟨b4, t⟩⟩⟩⟩⟩ <;>
    simp only [u32_le] <;> omega

end Dlt

namespace Dlt

/-- The signed microseconds value read at offset 8 of the storage header. -/
def storage_micros_int (data : List Byte) : Int :=
  i32_of_u32 (u32_le ((data.drop 8).take 4))

/-- The seconds argument `parse_storage_header` hands to
`DateTime::from_timestamp`, extracted from the raw buffer. -/
def storage_secs_arg (data : List Byte) : Nat :=
  (u32_le ((data.drop 4).take 4) + u32_of_int (storage_micros_int data) / 1000000) % 2 ^ 32

/-- The nanoseconds argument `parse_storage_header` hands to
`DateTime::from_timestamp`, extracted from the raw buffer. -/
def storage_nsecs_arg (data : List Byte) : Nat :=
  u32_of_int ((storage_micros_int data).tmod 1000000 * 1000)

lemma parse_storage_header_of_le {data : List Byte} (h : 16 ≤ data.length) :
    parse_storage_header data =
      match from_timestamp (storage_secs_arg data) (storage_nsecs_arg data) with
      | some ts => .ok ({ pattern := data.take 4, timestamp := ts,
                          ecu := strip_null ((data.drop 12).take 4) }, data.drop 16)
      | none => .panic := by
  unfold parse_storage_header
  rw [split_first_chunk_of_le (by omega)]
  simp only [PRes.bind]
  rw [split_first_chunk_of_le (by simp only [List.length_drop]; omega)]
  simp only [PRes.bind]
  rw [split_first_chunk_of_le (by simp only [List.drop_drop, List.length_drop]; omega)]
  simp only [PRes.bind]
  rw [split_first_chunk_of_le (by simp only [List.drop_drop, List.length_drop]; omega)]
  simp only [PRes.bind, List.drop_drop]
  norm_num [storage_secs_arg, storage_nsecs_arg, storage_micros_int]

end Dlt

namespace Dlt

lemma parse_standard_header_of_le {data : List Byte} (h : 4 ≤ data.length) :
    parse_standard_header data =
      .ok ({ htyp := (data.take 1).headD 0, mcnt := ((data.drop 1).take 1).headD 0,
             len := u16_be ((data.drop 2).take 2) }, data.drop 4) := by
  unfold parse_standard_header
  rw [split_first_chunk_of_le (by omega)]
  simp only [PRes.bind]
  rw [split_first_chunk_of_le (by simp only [List.length_drop]; omega)]
  simp only [PRes.bind]
  rw [split_first_chunk_of_le (by simp only [List.drop_drop, List.length_drop]; omega)]
  simp only [PRes.bind, List.drop_drop]

lemma parse_extended_header_of_le {data : List Byte} (h : 10 ≤ data.length) :
    parse_extended_header data =
      .ok ({ message_type :=
               MessageInfo.from_raw ((((data.take 1).headD 0).val >>> 1) &&& 7)
                 ((((data.take 1).headD 0).val >>> 4) &&& 15),
             noar := ((data.drop 1).take 1).headD 0,
             apid := strip_null ((data.drop 2).take 4),
             ctid := strip_null ((data.drop 6).take 4) }, data.drop 10) := by
  unfold parse_extended_header
  rw [split_first_chunk_of_le (by omega)]
  simp only [PRes.bind]
  rw [split_first_chunk_of_le (by simp only [List.length_drop]; omega)]
  simp only [PRes.bind]
  rw [split_first_chunk_of_le (by simp only [List.drop_drop, List.length_drop]; omega)]
  simp only [PRes.bind]
  rw [split_first_chunk_of_le (by simp only [List.drop_drop, List.length_drop]; omega)]
  simp only [PRes.bind, List.drop_drop]

lemma main_parse_extended_header_of_le {data : List Byte} (h : 10 ≤ data.length) :
    Main.parse_extended_header data =
      .ok ({ msin := (data.take 1).headD 0,
             noar := ((data.drop 1).take 1).headD 0,
             apid := strip_null ((data.drop 2).take 4),
             ctid := strip_null ((data.drop 6).take 4) }, data.drop 10) := by
  unfold Main.parse_extended_header
  rw [split_first_chunk_of_le (by omega)]
  simp only [PRes.bind]
  rw [split_first_chunk_of_le (by simp only [List.length_drop]; omega)]
  simp only [PRes.bind]
  rw [split_first_chunk_of_le (by simp only [List.drop_drop, List.length_drop]; omega)]
  simp only [PRes.bind]
  rw [split_first_chunk_of_le (by simp only [List.drop_drop, List.length_drop]; omega)]
  simp only [PRes.bind, List.drop_drop]

lemma parse_extensions_of_le {e s t : Bool} {data : List Byte}
    (h : ext_bytes e s t ≤ data.length) :
    parse_extensions e s t data = .ok ((), data.drop (ext_bytes e s t)) := by
  unfold parse_extensions
  exact if_pos h

lemma parse_extensions_short {e s t : Bool} {data : List Byte}
    (h : data.length < ext_bytes e s t) :
    parse_extensions e s t data = .panic := by
  unfold parse_extensions
  exact if_neg (by omega)

end Dlt

namespace Dlt

lemma parse_storage_header_short {data : List Byte} (h : data.length < 16) :
    parse_storage_header data = .err .truncatedInput := by
  have hl1 : (data.drop 4).length = data.length - 4 := by simp
  have hl2 : (data.drop 8).length = data.length - 8 := by simp
  have hl3 : (data.drop 12).length = data.length - 12 := by simp
  unfold parse_storage_header
  by_cases h1 : 4 ≤ data.length
  · rw [split_first_chunk_of_le h1]
    simp only [PRes.bind]
    by_cases h2 : 8 ≤ data.length
    · rw [split_first_chunk_of_le (by omega)]
      simp only [PRes.bind, List.drop_drop]
      norm_num
      by_cases h3 : 12 ≤ data.length
      · rw [split_first_chunk_of_le (by omega)]
        simp only [PRes.bind, List.drop_drop]
        norm_num
        rw [split_first_chunk_short (by omega)]
        try rfl
      · rw [split_first_chunk_short (by omega)]
        try rfl
    · rw [split_first_chunk_short (by omega)]
      try rfl
  · rw [split_first_chunk_short (by omega)]
    try rfl

lemma parse_standard_header_short {data : List Byte} (h : data.length < 4) :
    parse_standard_header data = .err .truncatedInput := by
  have hl1 : (data.drop 1).length = data.length - 1 := by simp
  have hl2 : (data.drop 2).length = data.length - 2 := by simp
  unfold parse_standard_header
  by_cases h1 : 1 ≤ data.length
  · rw [split_first_chunk_of_le h1]
    simp only [PRes.bind]
    by_cases h2 : 2 ≤ data.length
    · rw [split_first_chunk_of_le (by omega)]
      simp only [PRes.bind, List.drop_drop]
      norm_num
      rw [split_first_chunk_short (by omega)]
      try rfl
    · rw [split_first_chunk_short (by omega)]
      try rfl
  · rw [split_first_chunk_short (by omega)]
    try rfl

lemma parse_extended_header_short {data : List Byte} (h : data.length < 10) :
    parse_extended_header data = .err .truncatedInput := by
  have hl1 : (data.drop 1).length = data.length - 1 := by simp
  have hl2 : (data.drop 2).length = data.length - 2 := by simp
  have hl3 : (data.drop 6).length = data.length - 6 := by simp
  unfold parse_extended_header
  by_cases h1 : 1 ≤ data.length
  · rw [split_first_chunk_of_le h1]
    simp only [PRes.bind]
    by_cases h2 : 2 ≤ data.length
    · rw [split_first_chunk_of_le (by omega)]
      simp only [PRes.bind, List.drop_drop]
      norm_num
      by_cases h3 : 6 ≤ data.length
      · rw [split_first_chunk_of_le (by omega)]
        simp only [PRes.bind, List.drop_drop]
        norm_num
        rw [split_first_chunk_short (by omega)]
        try rfl
      · rw [split_first_chunk_short (by omega)]
        try rfl
    · rw [split_first_chunk_short (by omega)]
      try rfl
  · rw [split_first_chunk_short (by omega)]
    try rfl

end Dlt

namespace Dlt

lemma parse_storage_header_ok_inv {data : List Byte} {sh : StorageHeader} {d1 : List Byte}
    (h : parse_storage_header data = .ok (sh, d1)) :
    16 ≤ data.length ∧ d1 = data.drop 16 ∧ sh.pattern = data.take 4 := by
  by_cases hl : 16 ≤ data.length
  · rw [parse_storage_header_of_le hl] at h
    rcases hts : from_timestamp (storage_secs_arg data) (storage_nsecs_arg data) with _ | ts
    · rw [hts] at h
      simp at h
    · rw [hts] at h
      simp only [PRes.ok.injEq, Prod.mk.injEq] at h
      obtain ⟨h1, h2⟩ := h
      subst h2
      exact ⟨hl, rfl, by rw [← h1]⟩
  · rw [parse_storage_header_short (by omega)] at h
    simp at h

lemma parse_standard_header_ok_inv {data : List Byte} {sth : StandardHeader} {d1 : List Byte}
    (h : parse_standard_header data = .ok (sth, d1)) :
    4 ≤ data.length ∧ d1 = data.drop 4 ∧ sth.htyp = (data.take 1).headD 0 ∧
      sth.len = u16_be ((data.drop 2).take 2) ∧ sth.len < 65536 := by
  by_cases hl : 4 ≤ data.length
  · rw [parse_standard_header_of_le hl] at h
    simp only [PRes.ok.injEq, Prod.mk.injEq] at h
    obtain ⟨h1, h2⟩ := h
    subst h2
    refine ⟨hl, rfl, by rw [← h1], by rw [← h1], ?_⟩
    rw [← h1]
    exact u16_be_lt _
  · rw [parse_standard_header_short (by omega)] at h
    simp at h

lemma parse_extended_header_ok_inv {data : List Byte} {eh : ExtendedHeader} {d1 : List Byte}
    (h : parse_extended_header data = .ok (eh, d1)) :
    10 ≤ data.length ∧ d1 = data.drop 10 := by
  by_cases hl : 10 ≤ data.length
  · rw [parse_extended_header_of_le hl] at h
    simp only [PRes.ok.injEq, Prod.mk.injEq] at h
    exact ⟨hl, h.2.symm⟩
  · rw [parse_extended_header_short (by omega)] at h
    simp at h

lemma parse_extensions_ok_inv {e s t : Bool} {data : List Byte} {u : Unit} {d1 : List Byte}
    (h : parse_extensions e s t data = .ok (u, d1)) :
    ext_bytes e s t ≤ data.length ∧ d1 = data.drop (ext_bytes e s t) := by
  by_cases hl : ext_bytes e s t ≤ data.length
  · rw [parse_extensions_of_le hl] at h
    simp only [PRes.ok.injEq, Prod.mk.injEq] at h
    exact ⟨hl, h.2.symm⟩
  · rw [parse_extensions_short (by omega)] at h
    simp at h

lemma parse_storage_header_err_inv {data : List Byte} {e : DecodeError}
    (h : parse_storage_header data = .err e) : e = .truncatedInput := by
  by_cases hl : 16 ≤ data.length
  · rw [parse_storage_header_of_le hl] at h
    rcases hts : from_timestamp (storage_secs_arg data) (storage_nsecs_arg data) with _ | ts <;>
        rw [hts] at h <;>
      simp at h
  · rw [parse_storage_header_short (by omega)] at h
    injection h with h1
    exact h1.symm

lemma parse_standard_header_err_inv {data : List Byte} {e : DecodeError}
    (h : parse_standard_header data = .err e) : e = .truncatedInput := by
  by_cases hl : 4 ≤ data.length
  · rw [parse_standard_header_of_le hl] at h
    simp at h
  · rw [parse_standard_header_short (by omega)] at h
    injection h with h1
    exact h1.symm

lemma parse_extended_header_err_inv {data : List Byte} {e : DecodeError}
    (h : parse_extended_header data = .err e) : e = .truncatedInput := by
  by_cases hl : 10 ≤ data.length
  · rw [parse_extended_header_of_le hl] at h
    simp at h
  · rw [parse_extended_header_short (by omega)] at h
    injection h with h1
    exact h1.symm

lemma parse_extensions_ne_err (e s t : Bool) (data : List Byte) (x : DecodeError) :
    parse_extensions e s t data ≠ .err x := by
  by_cases hl : ext_bytes e s t ≤ data.length
  · rw [parse_extensions_of_le hl]
    simp
  · rw [parse_extensions_short (by omega)]
    simp

lemma parse_standard_header_not_panic (data : List Byte) :
    (parse_standard_header data).isPanic = false := by
  by_cases hl : 4 ≤ data.length
  · rw [parse_standard_header_of_le hl]
    rfl
  · rw [parse_standard_header_short (by omega)]
    rfl

lemma parse_extended_header_not_panic (data : List Byte) :
    (parse_extended_header data).isPanic = false := by
  by_cases hl : 10 ≤ data.length
  · rw [parse_extended_header_of_le hl]
    rfl
  · rw [parse_extended_header_short (by omega)]
    rfl

end Dlt

namespace Dlt

/-- Bytes a successful decode consumes up to and including the 6-byte
reserved field (the `parsed_bytes` of lib.rs line 44), as a function of the
standard-header flags: 16-byte storage header, 4-byte standard header, the
extension skips, the optional 10-byte extended header and 6 reserved
bytes. -/
def header_bytes (h : StandardHeader) : Nat :=
  16 + 4 +
    ext_bytes (h.htyp.val &&& 0x04 != 0) (h.htyp.val &&& 0x08 != 0) (h.htyp.val &&& 0x10 != 0) +
    (if h.htyp.val &&& 0x01 != 0 then 10 else 0) + 6

lemma ext_bytes_le_twelve (e s t : Bool) : ext_bytes e s t ≤ 12 := by
  cases e <;> cases s <;> cases t <;> decide

lemma parse_message_ok_inv {data : List Byte} {msg : Message} {rest : List Byte}
    (hbig : data.length < 2 ^ 63)
    (h : parse_message data = .ok (msg, rest)) :
    header_bytes msg.standard_header ≤ 16 + msg.standard_header.len ∧
    16 + msg.standard_header.len ≤ data.length ∧
    msg.payload.length + header_bytes msg.standard_header = 16 + msg.standard_header.len ∧
    rest = data.drop (16 + msg.standard_header.len) ∧
    data.length = 16 + msg.standard_header.len + rest.length := by
  unfold parse_message at h
  rcases hS : parse_storage_header data with ⟨sh, d1⟩ | eS | _
  · rw [hS] at h
    simp only [PRes.bind] at h
    obtain ⟨hlen16, hd1, -⟩ := parse_storage_header_ok_inv hS
    by_cases hmg : sh.pattern ≠ magic_pattern
    · rw [if_pos hmg] at h
      simp at h
    · rw [if_neg hmg] at h
      rcases hT : parse_standard_header d1 with ⟨sth, d2⟩ | eT | _
      · rw [hT] at h
        simp only [PRes.bind] at h
        obtain ⟨hlen4, hd2, -, -, hlenlt⟩ := parse_standard_header_ok_inv hT
        by_cases hmsb : sth.htyp.val &&& 0x02 ≠ 0
        · rw [if_pos hmsb] at h
          simp at h
        · rw [if_neg hmsb] at h
          rcases hX : parse_extensions (sth.htyp.val &&& 0x04 != 0)
              (sth.htyp.val &&& 0x08 != 0) (sth.htyp.val &&& 0x10 != 0) d2 with
            ⟨uu, d3⟩ | eX | _
          · rw [hX] at h
            simp only [PRes.bind] at h
            obtain ⟨hext, hd3⟩ := parse_extensions_ok_inv hX
            have heble : ext_bytes (sth.htyp.val &&& 0x04 != 0) (sth.htyp.val &&& 0x08 != 0)
                (sth.htyp.val &&& 0x10 != 0) ≤ 12 := ext_bytes_le_twelve _ _ _
            set eb := ext_bytes (sth.htyp.val &&& 0x04 != 0) (sth.htyp.val &&& 0x08 != 0)
                (sth.htyp.val &&& 0x10 != 0) with heb
            by_cases hE1 : (sth.htyp.val &&& 0x01 != 0) = true
            · rw [if_pos hE1] at h
              rcases hE : parse_extended_header d3 with ⟨eh, d4⟩ | eE | _
              · rw [hE] at h
                simp only [PRes.map, PRes.bind] at h
                obtain ⟨hlen10, hd4⟩ := parse_extended_header_ok_inv hE
                have e1 : d1.length = data.length - 16 := by rw [hd1]; simp
                have e2 : d2.length = d1.length - 4 := by rw [hd2]; simp
                have e3 : d3.length = d2.length - eb := by rw [hd3]; simp
                have e4 : d4.length = d3.length - 10 := by rw [hd4]; simp
                split at h
                · split at h
                  · rename_i h6 hRB
                    simp only [PRes.ok.injEq, Prod.mk.injEq] at h
                    obtain ⟨rfl, rfl⟩ := h
                    have e5 : (d4.drop 6).length = d4.length - 6 := by simp
                    have hd5 : d4.drop 6 = data.drop (16 + 4 + eb + 10 + 6) := by
                      rw [hd4, hd3, hd2, hd1]
                      simp only [List.drop_drop]
                    have hhb : header_bytes sth = 16 + 4 + eb + 10 + 6 := by
                      simp only [header_bytes, ← heb, hE1, if_pos]
                    try dsimp only
                    rw [hhb]
                    refine ⟨by omega, by omega, ?_, ?_, ?_⟩
                    · simp only [List.length_take]
                      omega
                    · rw [hd5, List.drop_drop]
                      congr 1
                      simp only [List.length_drop] at hRB ⊢
                      omega
                    · simp only [List.length_drop] at hRB ⊢
                      omega
                  · simp at h
                · simp at h
              · rw [hE] at h
                simp [PRes.map, PRes.bind] at h
              · rw [hE] at h
                simp [PRes.map, PRes.bind] at h
            · rw [if_neg hE1] at h
              simp only [PRes.bind] at h
              have e1 : d1.length = data.length - 16 := by rw [hd1]; simp
              have e2 : d2.length = d1.length - 4 := by rw [hd2]; simp
              have e3 : d3.length = d2.length - eb := by rw [hd3]; simp
              split at h
              · split at h
                · rename_i h6 hRB
                  simp only [PRes.ok.injEq, Prod.mk.injEq] at h
                  obtain ⟨rfl, rfl⟩ := h
                  have e5 : (d3.drop 6).length = d3.length - 6 := by simp
                  have hd5 : d3.drop 6 = data.drop (16 + 4 + eb + 6) := by
                    rw [hd3, hd2, hd1]
                    simp only [List.drop_drop]
                  have hE1z : sth.htyp.val &&& 0x01 = 0 := by
                    simpa using hE1
                  have hhb : header_bytes sth = 16 + 4 + eb + 0 + 6 := by
                    simp [header_bytes, ← heb, hE1z]
                  try dsimp only
                  rw [hhb]
                  refine ⟨by omega, by omega, ?_, ?_, ?_⟩
                  · simp only [List.length_take]
                    omega
                  · rw [hd5, List.drop_drop]
                    congr 1
                    simp only [List.length_drop] at hRB ⊢
                    omega
                  · simp only [List.length_drop] at hRB ⊢
                    omega
                · simp at h
              · simp at h
          · rw [hX] at h
            simp [PRes.bind] at h
          · rw [hX] at h
            simp [PRes.bind] at h
      · rw [hT] at h
        simp [PRes.bind] at h
      · rw [hT] at h
        simp [PRes.bind] at h
  · rw [hS] at h
    simp [PRes.bind] at h
  · rw [hS] at h
    simp [PRes.bind] at h

end Dlt

namespace Dlt

lemma parse_message_ne_payload_err (data : List Byte) :
    parse_message data ≠ .err .payloadLengthOutOfRange := by
  intro h
  unfold parse_message at h
  rcases hS : parse_storage_header data with ⟨sh, d1⟩ | eS | _
  · rw [hS] at h
    simp only [PRes.bind] at h
    by_cases hmg : sh.pattern ≠ magic_pattern
    · rw [if_pos hmg] at h
      simp at h
    · rw [if_neg hmg] at h
      rcases hT : parse_standard_header d1 with ⟨sth, d2⟩ | eT | _
      · rw [hT] at h
        simp only [PRes.bind] at h
        by_cases hmsb : sth.htyp.val &&& 0x02 ≠ 0
        · rw [if_pos hmsb] at h
          simp at h
        · rw [if_neg hmsb] at h
          rcases hX : parse_extensions (sth.htyp.val &&& 0x04 != 0)
              (sth.htyp.val &&& 0x08 != 0) (sth.htyp.val &&& 0x10 != 0) d2 with
            ⟨uu, d3⟩ | eX | _
          · rw [hX] at h
            simp only [PRes.bind] at h
            by_cases hE1 : (sth.htyp.val &&& 0x01 != 0) = true
            · rw [if_pos hE1] at h
              rcases hE : parse_extended_header d3 with ⟨eh, d4⟩ | eE | _
              · rw [hE] at h
                simp only [PRes.map, PRes.bind] at h
                split at h
                · split at h <;> simp at h
                · simp at h
              · rw [hE] at h
                rw [show eE = .truncatedInput from parse_extended_header_err_inv hE] at h
                simp [PRes.map, PRes.bind] at h
              · rw [hE] at h
                simp [PRes.map, PRes.bind] at h
            · rw [if_neg hE1] at h
              simp only [PRes.bind] at h
              split at h
              · split at h <;> simp at h
              · simp at h
          · exact parse_extensions_ne_err _ _ _ _ _ hX
          · rw [hX] at h
            simp [PRes.bind] at h
      · rw [hT] at h
        rw [show eT = .truncatedInput from parse_standard_header_err_inv hT] at h
        simp [PRes.bind] at h
      · rw [hT] at h
        simp [PRes.bind] at h
  · rw [hS] at h
    rw [show eS = .truncatedInput from parse_storage_header_err_inv hS] at h
    simp [PRes.bind] at h
  · rw [hS] at h
    simp [PRes.bind] at h

end Dlt

namespace Dlt

/-- The `htyp` byte of the standard header: the byte at offset 16 of the
record, the first byte `parse_standard_header` reads (lib.rs line 103). -/
def record_htyp (data : List Byte) : Byte := ((data.drop 16).take 1).headD 0

/-- The big-endian `len` field of the standard header, read from offsets
18-19 of the record (lib.rs lines 105-107). -/
def record_len (data : List Byte) : Nat := u16_be ((data.drop 18).take 2)

/-- The extension-skip width selected by the `htyp` flags of the buffer
(lib.rs lines 127-137): 4 bytes per set flag. -/
def record_ext_bytes (data : List Byte) : Nat :=
  ext_bytes ((record_htyp data).val &&& 0x04 != 0) ((record_htyp data).val &&& 0x08 != 0)
    ((record_htyp data).val &&& 0x10 != 0)

/-- Bytes consumed once the 16-byte storage header, the 4-byte standard
header, the extension skip and the optional 10-byte extended header have
been read: the offset of the 6-byte reserved field. -/
def record_header_end (data : List Byte) : Nat :=
  20 + record_ext_bytes data + (if (record_htyp data).val &&& 0x01 != 0 then 10 else 0)

lemma parse_message_storage_short {data : List Byte} (h : data.length < 16) :
    parse_message data = .err .truncatedInput := by
  unfold parse_message
  rw [parse_storage_header_short h]
  rfl

lemma parse_message_ts_none {data : List Byte} (h16 : 16 ≤ data.length)
    (hts : from_timestamp (storage_secs_arg data) (storage_nsecs_arg data) = none) :
    parse_message data = .panic := by
  unfold parse_message
  rw [parse_storage_header_of_le h16, hts]
  rfl

lemma parse_message_magic_err {data : List Byte} (h16 : 16 ≤ data.length)
    (hts : (from_timestamp (storage_secs_arg data) (storage_nsecs_arg data)).isSome = true)
    (hm : data.take 4 ≠ magic_pattern) :
    parse_message data = .err .invalidMagic := by
  rcases hx : from_timestamp (storage_secs_arg data) (storage_nsecs_arg data) with _ | ts
  · rw [hx] at hts
    simp at hts
  · unfold parse_message
    rw [parse_storage_header_of_le h16, hx]
    simp only [PRes.bind]
    rw [if_pos hm]

lemma parse_message_std_short {data : List Byte} (h16 : 16 ≤ data.length)
    (h20 : data.length < 20)
    (hts : (from_timestamp (storage_secs_arg data) (storage_nsecs_arg data)).isSome = true)
    (hm : data.take 4 = magic_pattern) :
    parse_message data = .err .truncatedInput := by
  rcases hx : from_timestamp (storage_secs_arg data) (storage_nsecs_arg data) with _ | ts
  · rw [hx] at hts
    simp at hts
  · unfold parse_message
    rw [parse_storage_header_of_le h16, hx]
    simp only [PRes.bind]
    rw [if_neg (by simp [hm])]
    rw [parse_standard_header_short (by simp only [List.length_drop]; omega)]

lemma parse_message_be_err {data : List Byte} (h20 : 20 ≤ data.length)
    (hts : (from_timestamp (storage_secs_arg data) (storage_nsecs_arg data)).isSome = true)
    (hm : data.take 4 = magic_pattern)
    (hbe : (record_htyp data).val &&& 0x02 ≠ 0) :
    parse_message data = .err .unsupportedByteOrder := by
  rcases hx : from_timestamp (storage_secs_arg data) (storage_nsecs_arg data) with _ | ts
  · rw [hx] at hts
    simp at hts
  · simp only [record_htyp] at hbe
    unfold parse_message
    rw [parse_storage_header_of_le (by omega), hx]
    simp only [PRes.bind]
    rw [if_neg (by simp [hm])]
    rw [parse_standard_header_of_le (by simp only [List.length_drop]; omega)]
    simp only [PRes.bind]
    rw [if_pos hbe]

lemma parse_message_ext_skip_panic {data : List Byte} (h20 : 20 ≤ data.length)
    (hts : (from_timestamp (storage_secs_arg data) (storage_nsecs_arg data)).isSome = true)
    (hm : data.take 4 = magic_pattern)
    (hbe : (record_htyp data).val &&& 0x02 = 0)
    (hshort : data.length < 20 + record_ext_bytes data) :
    parse_message data = .panic := by
  rcases hx : from_timestamp (storage_secs_arg data) (storage_nsecs_arg data) with _ | ts
  · rw [hx] at hts
    simp at hts
  · simp only [record_ext_bytes, record_htyp] at hshort
    simp only [record_htyp] at hbe
    unfold parse_message
    rw [parse_storage_header_of_le (by omega), hx]
    simp only [PRes.bind]
    rw [if_neg (by simp [hm])]
    rw [parse_standard_header_of_le (by simp only [List.length_drop]; omega)]
    simp only [PRes.bind]
    rw [if_neg (by simpa using hbe)]
    have hE : ((data.drop 16).drop 4).length <
        ext_bytes ((((data.drop 16).take 1).headD 0).val &&& 0x04 != 0)
          ((((data.drop 16).take 1).headD 0).val &&& 0x08 != 0)
          ((((data.drop 16).take 1).headD 0).val &&& 0x10 != 0) := by
      simp only [List.length_drop]
      omega
    rw [parse_extensions_short hE]

lemma parse_message_exthdr_short {data : List Byte}
    (hts : (from_timestamp (storage_secs_arg data) (storage_nsecs_arg data)).isSome = true)
    (hm : data.take 4 = magic_pattern)
    (hbe : (record_htyp data).val &&& 0x02 = 0)
    (hf : (record_htyp data).val &&& 0x01 ≠ 0)
    (hlen : 20 + record_ext_bytes data ≤ data.length)
    (hshort : data.length < 20 + record_ext_bytes data + 10) :
    parse_message data = .err .truncatedInput := by
  rcases hx : from_timestamp (storage_secs_arg data) (storage_nsecs_arg data) with _ | ts
  · rw [hx] at hts
    simp at hts
  · simp only [record_ext_bytes, record_htyp] at hlen hshort
    simp only [record_htyp] at hbe hf
    unfold parse_message
    rw [parse_storage_header_of_le (by omega), hx]
    simp only [PRes.bind]
    rw [if_neg (by simp [hm])]
    rw [parse_standard_header_of_le (by simp only [List.length_drop]; omega)]
    simp only [PRes.bind]
    rw [if_neg (by simpa using hbe)]
    have hE : ext_bytes ((((data.drop 16).take 1).headD 0).val &&& 0x04 != 0)
          ((((data.drop 16).take 1).headD 0).val &&& 0x08 != 0)
          ((((data.drop 16).take 1).headD 0).val &&& 0x10 != 0) ≤
        ((data.drop 16).drop 4).length := by
      simp only [List.length_drop]
      omega
    rw [parse_extensions_of_le hE]
    simp only [PRes.bind]
    rw [if_pos (by simpa using hf)]
    rw [parse_extended_header_short (by simp only [List.length_drop]; omega)]
    rfl

lemma parse_message_reserved_panic {data : List Byte}
    (hts : (from_timestamp (storage_secs_arg data) (storage_nsecs_arg data)).isSome = true)
    (hm : data.take 4 = magic_pattern)
    (hbe : (record_htyp data).val &&& 0x02 = 0)
    (hlen : record_header_end data ≤ data.length)
    (hshort : data.length < record_header_end data + 6) :
    parse_message data = .panic := by
  rcases hx : from_timestamp (storage_secs_arg data) (storage_nsecs_arg data) with _ | ts
  · rw [hx] at hts
    simp at hts
  · simp only [record_header_end, record_ext_bytes, record_htyp] at hlen hshort
    simp only [record_htyp] at hbe
    unfold parse_message
    rw [parse_storage_header_of_le (by omega), hx]
    simp only [PRes.bind]
    rw [if_neg (by simp [hm])]
    rw [parse_standard_header_of_le (by simp only [List.length_drop]; omega)]
    simp only [PRes.bind]
    rw [if_neg (by simpa using hbe)]
    have hE : ext_bytes ((((data.drop 16).take 1).headD 0).val &&& 0x04 != 0)
          ((((data.drop 16).take 1).headD 0).val &&& 0x08 != 0)
          ((((data.drop 16).take 1).headD 0).val &&& 0x10 != 0) ≤
        ((data.drop 16).drop 4).length := by
      simp only [List.length_drop]
      omega
    rw [parse_extensions_of_le hE]
    simp only [PRes.bind]
    by_cases hf : ((((data.drop 16).take 1).headD 0).val &&& 0x01 != 0) = true
    · rw [if_pos hf] at hlen hshort
      rw [if_pos hf]
      rw [parse_extended_header_of_le (by simp only [List.length_drop]; omega)]
      simp only [PRes.map, PRes.bind]
      rw [if_neg (by simp only [List.length_drop]; omega)]
    · rw [if_neg hf] at hlen hshort
      rw [if_neg hf]
      simp only [PRes.bind]
      rw [if_neg (by simp only [List.length_drop]; omega)]

lemma parse_message_payload_panic {data : List Byte}
    (hts : (from_timestamp (storage_secs_arg data) (storage_nsecs_arg data)).isSome = true)
    (hm : data.take 4 = magic_pattern)
    (hbe : (record_htyp data).val &&& 0x02 = 0)
    (hlen : record_header_end data + 6 ≤ data.length)
    (hover : data.length - (record_header_end data + 6) <
      ((record_len data + 2 ^ 64 - (record_header_end data + 6)) % 2 ^ 64 + 16) % 2 ^ 64) :
    parse_message data = .panic := by
  rcases hx : from_timestamp (storage_secs_arg data) (storage_nsecs_arg data) with _ | ts
  · rw [hx] at hts
    simp at hts
  · simp only [record_header_end, record_len, record_ext_bytes, record_htyp] at hlen hover
    simp only [record_htyp] at hbe
    have hdd : (data.drop 16).drop 2 = data.drop 18 := by
      simp [List.drop_drop]
    rw [← hdd] at hover
    unfold parse_message
    rw [parse_storage_header_of_le (by omega), hx]
    simp only [PRes.bind]
    rw [if_neg (by simp [hm])]
    rw [parse_standard_header_of_le (by simp only [List.length_drop]; omega)]
    simp only [PRes.bind]
    rw [if_neg (by simpa using hbe)]
    have hE : ext_bytes ((((data.drop 16).take 1).headD 0).val &&& 0x04 != 0)
          ((((data.drop 16).take 1).headD 0).val &&& 0x08 != 0)
          ((((data.drop 16).take 1).headD 0).val &&& 0x10 != 0) ≤
        ((data.drop 16).drop 4).length := by
      simp only [List.length_drop]
      omega
    rw [parse_extensions_of_le hE]
    simp only [PRes.bind]
    by_cases hf : ((((data.drop 16).take 1).headD 0).val &&& 0x01 != 0) = true
    · rw [if_pos hf] at hlen hover
      rw [if_pos hf]
      rw [parse_extended_header_of_le (by simp only [List.length_drop]; omega)]
      simp only [PRes.map, PRes.bind]
      rw [if_pos (by simp only [List.length_drop]; omega)]
      try dsimp only
      rw [if_neg (by simp only [List.length_drop]; omega)]
    · rw [if_neg hf] at hlen hover
      rw [if_neg hf]
      simp only [PRes.bind]
      rw [if_pos (by simp only [List.length_drop]; omega)]
      try dsimp only
      rw [if_neg (by simp only [List.length_drop]; omega)]

lemma parse_message_success_of {data : List Byte}
    (hts : (from_timestamp (storage_secs_arg data) (storage_nsecs_arg data)).isSome = true)
    (hm : data.take 4 = magic_pattern)
    (hbe : (record_htyp data).val &&& 0x02 = 0)
    (hlen : record_header_end data + 6 ≤ data.length)
    (hok : ((record_len data + 2 ^ 64 - (record_header_end data + 6)) % 2 ^ 64 + 16) % 2 ^ 64 ≤
      data.length - (record_header_end data + 6)) :
    ∃ msg rest, parse_message data = .ok (msg, rest) := by
  rcases hx : from_timestamp (storage_secs_arg data) (storage_nsecs_arg data) with _ | ts
  · rw [hx] at hts
    simp at hts
  · simp only [record_header_end, record_len, record_ext_bytes, record_htyp] at hlen hok
    simp only [record_htyp] at hbe
    have hdd : (data.drop 16).drop 2 = data.drop 18 := by
      simp [List.drop_drop]
    rw [← hdd] at hok
    unfold parse_message
    rw [parse_storage_header_of_le (by omega), hx]
    simp only [PRes.bind]
    rw [if_neg (by simp [hm])]
    rw [parse_standard_header_of_le (by simp only [List.length_drop]; omega)]
    simp only [PRes.bind]
    rw [if_neg (by simpa using hbe)]
    have hE : ext_bytes ((((data.drop 16).take 1).headD 0).val &&& 0x04 != 0)
          ((((data.drop 16).take 1).headD 0).val &&& 0x08 != 0)
          ((((data.drop 16).take 1).headD 0).val &&& 0x10 != 0) ≤
        ((data.drop 16).drop 4).length := by
      simp only [List.length_drop]
      omega
    rw [parse_extensions_of_le hE]
    simp only [PRes.bind]
    by_cases hf : ((((data.drop 16).take 1).headD 0).val &&& 0x01 != 0) = true
    · rw [if_pos hf] at hlen hok
      rw [if_pos hf]
      rw [parse_extended_header_of_le (by simp only [List.length_drop]; omega)]
      simp only [PRes.map, PRes.bind]
      rw [if_pos (by simp only [List.length_drop]; omega)]
      try dsimp only
      rw [if_pos (by simp only [List.length_drop]; omega)]
      exact ⟨_, _, rfl⟩
    · rw [if_neg hf] at hlen hok
      rw [if_neg hf]
      simp only [PRes.bind]
      rw [if_pos (by simp only [List.length_drop]; omega)]
      try dsimp only
      rw [if_pos (by simp only [List.length_drop]; omega)]
      exact ⟨_, _, rfl⟩

end Dlt

namespace Dlt

/-- C1: for every input buffer on which `parse_message` succeeds, the payload
length equals `total_length` minus the bytes consumed from the start of the
record through the end of the 6-byte reserved field (`header_bytes`) plus 16;
equivalently one successful decode consumes exactly `16 + total_length` bytes
and returns the rest of the buffer as the remainder.  The length bound
`data.length < 2 ^ 63` reflects that a Rust slice never exceeds
`isize::MAX` bytes. -/
theorem c1_payload_and_consumption (data : List Byte) (msg : Message) (rest : List Byte)
    (hbig : data.length < 2 ^ 63)
    (h : parse_message data = .ok (msg, rest)) :
    header_bytes msg.standard_header ≤ 16 + msg.standard_header.len ∧
    msg.payload.length + header_bytes msg.standard_header = 16 + msg.standard_header.len ∧
    16 + msg.standard_header.len ≤ data.length ∧
    rest = data.drop (16 + msg.standard_header.len) ∧
    data.length = 16 + msg.standard_header.len + rest.length := by
  obtain ⟨h1, h2, h3, h4, h5⟩ := parse_message_ok_inv hbig h
  exact ⟨h1, h3, h2, h4, h5⟩

/-- A 26-byte buffer holding one record with no optional headers,
`total_length = 10` and an empty payload. -/
def c1_buf : List Byte :=
  magic_pattern ++ List.replicate 12 0 ++ [0x00, 0x00, 0x00, 0x0a] ++ List.replicate 6 0

/-- The record `c1_buf` decodes to. -/
def c1_msg : Message :=
  { storage_header := { pattern := magic_pattern, timestamp := ⟨0, 0⟩,
                        ecu := List.replicate 4 0 },
    standard_header := { htyp := 0, mcnt := 0, len := 10 },
    extended_header := none,
    payload := [] }

/-- Witness for C1 at a concrete successfully decoded buffer. -/
theorem c1_payload_and_consumption_witness :
    c1_buf.length < 2 ^ 63 ∧ parse_message c1_buf = .ok (c1_msg, []) ∧
    (header_bytes c1_msg.standard_header ≤ 16 + c1_msg.standard_header.len ∧
     c1_msg.payload.length + header_bytes c1_msg.standard_header =
       16 + c1_msg.standard_header.len ∧
     16 + c1_msg.standard_header.len ≤ c1_buf.length ∧
     ([] : List Byte) = c1_buf.drop (16 + c1_msg.standard_header.len) ∧
     c1_buf.length = 16 + c1_msg.standard_header.len + ([] : List Byte).length) :=
  ⟨by decide, by decide,
   c1_payload_and_consumption c1_buf c1_msg [] (by decide) (by decide)⟩

/-- A buffer whose headers decode (valid magic, byte-order flag clear) but
whose `total_length` of `0xffff` implies a payload far beyond the remaining
(empty) buffer. -/
def c4_buf_over : List Byte :=
  magic_pattern ++ List.replicate 12 0 ++ [0x00, 0x00, 0xff, 0xff] ++ List.replicate 6 0

/-- A buffer whose headers decode but whose `total_length = 0` makes the
computed payload length negative (`0 + 16 - 26 < 0`). -/
def c4_buf_neg : List Byte :=
  magic_pattern ++ List.replicate 12 0 ++ [0x00, 0x00, 0x00, 0x00] ++ List.replicate 6 0

/-- C4, counterexample: on a buffer whose storage and standard headers decode
but whose payload would overrun the remaining buffer, `parse_message` panics
(the `split_at` of lib.rs line 48) instead of failing with the
`PayloadLengthOutOfRange` error value the claim requires. -/
theorem c4_counterexample :
    parse_message c4_buf_over = .panic ∧
    parse_message c4_buf_over ≠ .err .payloadLengthOutOfRange := by
  decide

/-- C4 (amended): when the computed payload length is negative or exceeds the
remaining buffer the decoder panics rather than returning an error value;
`parse_message` never produces `PayloadLengthOutOfRange` on any input
(shown here together with the panic on a negative computed length). -/
theorem c4_payload_out_of_range_panics :
    (∀ data : List Byte, parse_message data ≠ .err .payloadLengthOutOfRange) ∧
    parse_message c4_buf_neg = .panic ∧ parse_message c4_buf_over = .panic :=
  ⟨parse_message_ne_payload_err, by decide, by decide⟩

end Dlt

namespace Dlt

/-- Witness for C4 (amended): the no-`PayloadLengthOutOfRange` part applied
at a concrete buffer. -/
theorem c4_payload_out_of_range_panics_witness :
    parse_message [] ≠ .err .payloadLengthOutOfRange :=
  c4_payload_out_of_range_panics.1 []

/-- A 20-byte buffer: valid storage header, standard header with the
sender-id-extension flag set (`htyp = 0x04`) and nothing after it, so the
extension skip runs past the end of the buffer. -/
def c2_buf : List Byte :=
  magic_pattern ++ List.replicate 12 0 ++ [0x04, 0x00, 0x00, 0x00]

/-- C2, counterexample: `parse_message` is not total as an error-returning
function — on `c2_buf` the extension skip (`&data[bytes..]`, lib.rs line
139) runs past the end of the buffer and the decoder panics instead of
returning one of the error values the claim lists. -/
theorem c2_counterexample :
    parse_message c2_buf = .panic ∧
    parse_message c2_buf ≠ .err .truncatedInput ∧
    parse_message c2_buf ≠ .err .invalidMagic ∧
    parse_message c2_buf ≠ .err .unsupportedByteOrder ∧
    parse_message c2_buf ≠ .err .payloadLengthOutOfRange := by
  decide

/-- A 16-byte buffer with a valid magic but the microseconds field set to
`-1` (`0xffffffff` little-endian), which makes the timestamp `unwrap`
panic. -/
def c2w_ts : List Byte :=
  magic_pattern ++ [0, 0, 0, 0] ++ [0xff, 0xff, 0xff, 0xff] ++ [0, 0, 0, 0]

/-- A 26-byte buffer holding one well-formed record with no optional headers,
`total_length = 10` and an empty payload. -/
def c2w_ok : List Byte :=
  magic_pattern ++ List.replicate 12 0 ++ [0x00, 0x00, 0x00, 0x0a] ++ List.replicate 6 0

/-- C2 (amended): `parse_message` always terminates, and every input buffer
falls into exactly one of the following classes.  Error values: a buffer
shorter than the 16-byte storage header, a buffer too short for the 4-byte
standard header, and a buffer too short for the optional 10-byte extended
header each yield TruncatedInput; a wrong magic (with a representable
timestamp) yields InvalidMagic; the big-endian-payload flag yields
UnsupportedByteOrder; no other error value ever appears.  Panics: an
unrepresentable storage timestamp, an extension skip past the end of the
buffer, a reserved-field skip past the end, and a payload slice whose
(wrapping) computed length exceeds the remaining bytes each panic instead
of returning an error value.  In the one remaining case the decoder
returns a record. -/
theorem c2_totality_amended :
    (∀ data : List Byte, data.length < 16 → parse_message data = .err .truncatedInput) ∧
    (∀ data : List Byte, 16 ≤ data.length →
      from_timestamp (storage_secs_arg data) (storage_nsecs_arg data) = none →
      parse_message data = .panic) ∧
    (∀ data : List Byte, 16 ≤ data.length →
      (from_timestamp (storage_secs_arg data) (storage_nsecs_arg data)).isSome = true →
      data.take 4 ≠ magic_pattern → parse_message data = .err .invalidMagic) ∧
    (∀ data : List Byte, 16 ≤ data.length → data.length < 20 →
      (from_timestamp (storage_secs_arg data) (storage_nsecs_arg data)).isSome = true →
      data.take 4 = magic_pattern → parse_message data = .err .truncatedInput) ∧
    (∀ data : List Byte, 20 ≤ data.length →
      (from_timestamp (storage_secs_arg data) (storage_nsecs_arg data)).isSome = true →
      data.take 4 = magic_pattern → (record_htyp data).val &&& 0x02 ≠ 0 →
      parse_message data = .err .unsupportedByteOrder) ∧
    (∀ data : List Byte, 20 ≤ data.length →
      (from_timestamp (storage_secs_arg data) (storage_nsecs_arg data)).isSome = true →
      data.take 4 = magic_pattern → (record_htyp data).val &&& 0x02 = 0 →
      data.length < 20 + record_ext_bytes data → parse_message data = .panic) ∧
    (∀ data : List Byte,
      (from_timestamp (storage_secs_arg data) (storage_nsecs_arg data)).isSome = true →
      data.take 4 = magic_pattern → (record_htyp data).val &&& 0x02 = 0 →
      (record_htyp data).val &&& 0x01 ≠ 0 →
      20 + record_ext_bytes data ≤ data.length →
      data.length < 20 + record_ext_bytes data + 10 →
      parse_message data = .err .truncatedInput) ∧
    (∀ data : List Byte,
      (from_timestamp (storage_secs_arg data) (storage_nsecs_arg data)).isSome = true →
      data.take 4 = magic_pattern → (record_htyp data).val &&& 0x02 = 0 →
      record_header_end data ≤ data.length →
      data.length < record_header_end data + 6 → parse_message data = .panic) ∧
    (∀ data : List Byte,
      (from_timestamp (storage_secs_arg data) (storage_nsecs_arg data)).isSome = true →
      data.take 4 = magic_pattern → (record_htyp data).val &&& 0x02 = 0 →
      record_header_end data + 6 ≤ data.length →
      data.length - (record_header_end data + 6) <
        ((record_len data + 2 ^ 64 - (record_header_end data + 6)) % 2 ^ 64 + 16) % 2 ^ 64 →
      parse_message data = .panic) ∧
    (∀ data : List Byte,
      (from_timestamp (storage_secs_arg data) (storage_nsecs_arg data)).isSome = true →
      data.take 4 = magic_pattern → (record_htyp data).val &&& 0x02 = 0 →
      record_header_end data + 6 ≤ data.length →
      ((record_len data + 2 ^ 64 - (record_header_end data + 6)) % 2 ^ 64 + 16) % 2 ^ 64 ≤
        data.length - (record_header_end data + 6) →
      ∃ msg rest, parse_message data = .ok (msg, rest)) ∧
    (∀ data : List Byte, parse_message data ≠ .err .payloadLengthOutOfRange) :=
  ⟨fun _ h => parse_message_storage_short h,
   fun _ h16 hts => parse_message_ts_none h16 hts,
   fun _ h16 hts hm => parse_message_magic_err h16 hts hm,
   fun _ h16 h20 hts hm => parse_message_std_short h16 h20 hts hm,
   fun _ h20 hts hm hbe => parse_message_be_err h20 hts hm hbe,
   fun _ h20 hts hm hbe hshort => parse_message_ext_skip_panic h20 hts hm hbe hshort,
   fun _ hts hm hbe hf hlen hshort => parse_message_exthdr_short hts hm hbe hf hlen hshort,
   fun _ hts hm hbe hlen hshort => parse_message_reserved_panic hts hm hbe hlen hshort,
   fun _ hts hm hbe hlen hover => parse_message_payload_panic hts hm hbe hlen hover,
   fun _ hts hm hbe hlen hok => parse_message_success_of hts hm hbe hlen hok,
   parse_message_ne_payload_err⟩

/-- Witness for C2 (amended) at concrete inputs: a short buffer
(TruncatedInput), an unrepresentable timestamp (panic), the extension skip
past the end of `c2_buf` (panic), and a well-formed record (success), each
hypothesis discharged by computation. -/
theorem c2_totality_amended_witness :
    (([] : List Byte).length < 16 ∧ parse_message [] = .err .truncatedInput) ∧
    (16 ≤ c2w_ts.length ∧
     from_timestamp (storage_secs_arg c2w_ts) (storage_nsecs_arg c2w_ts) = none ∧
     parse_message c2w_ts = .panic) ∧
    (20 ≤ c2_buf.length ∧
     (from_timestamp (storage_secs_arg c2_buf) (storage_nsecs_arg c2_buf)).isSome = true ∧
     c2_buf.take 4 = magic_pattern ∧ (record_htyp c2_buf).val &&& 0x02 = 0 ∧
     c2_buf.length < 20 + record_ext_bytes c2_buf ∧
     parse_message c2_buf = .panic) ∧
    (record_header_end c2w_ok + 6 ≤ c2w_ok.length ∧
     ∃ msg rest, parse_message c2w_ok = .ok (msg, rest)) :=
  ⟨⟨by decide, c2_totality_amended.1 [] (by decide)⟩,
   ⟨by decide, by decide, c2_totality_amended.2.1 c2w_ts (by decide) (by decide)⟩,
   ⟨by decide, by decide, by decide, by decide, by decide,
    c2_totality_amended.2.2.2.2.2.1 c2_buf (by decide) (by decide) (by decide) (by decide)
      (by decide)⟩,
   ⟨by decide,
    c2_totality_amended.2.2.2.2.2.2.2.2.2.1 c2w_ok (by decide) (by decide) (by decide)
      (by decide) (by decide)⟩⟩

end Dlt

namespace Dlt

/-- C7, counterexample: with the sender-id flag set and an empty buffer,
`parse_extensions` panics (`&data[bytes..]` out of bounds) instead of
failing with the `TruncatedInput` error value the claim requires. -/
theorem c7_counterexample :
    parse_extensions true false false [] = .panic ∧
    parse_extensions true false false [] ≠ .err .truncatedInput := by
  decide

/-- C7 (amended): the extension-skip stage advances the cursor by exactly
4 bytes per set flag (sender id, session id, timestamp, in that fixed
order), exposing nothing of the skipped contents, and it panics — it does
not return an error value — when fewer bytes remain than the set flags
require. -/
theorem c7_extension_skip :
    (∀ (e s t : Bool) (data : List Byte), ext_bytes e s t ≤ data.length →
      parse_extensions e s t data = .ok ((), data.drop (ext_bytes e s t))) ∧
    (∀ (e s t : Bool) (data : List Byte), data.length < ext_bytes e s t →
      parse_extensions e s t data = .panic) ∧
    (∀ (e s t : Bool) (data : List Byte) (x : DecodeError),
      parse_extensions e s t data ≠ .err x) ∧
    (∀ e s t : Bool,
      ext_bytes e s t =
        (if e then 4 else 0) + (if s then 4 else 0) + (if t then 4 else 0)) :=
  ⟨fun _ _ _ _ h => parse_extensions_of_le h,
   fun _ _ _ _ h => parse_extensions_short h,
   parse_extensions_ne_err,
   fun _ _ _ => rfl⟩

/-- Witness for C7 (amended): all three flags set over a 13-byte buffer skip
exactly 12 bytes; a single set flag over an empty buffer panics. -/
theorem c7_extension_skip_witness :
    (ext_bytes true true true ≤
      ([1, 2, 3, 4, 5, 6, 7, 8, 9, 10, 11, 12, 13] : List Byte).length ∧
     parse_extensions true true true [1, 2, 3, 4, 5, 6, 7, 8, 9, 10, 11, 12, 13] =
       .ok ((), [13])) ∧
    (([] : List Byte).length < ext_bytes false false true ∧
     parse_extensions false false true [] = .panic) :=
  ⟨⟨by decide, by
      have h := c7_extension_skip.1 true true true
        [1, 2, 3, 4, 5, 6, 7, 8, 9, 10, 11, 12, 13] (by decide)
      simpa using h⟩,
   ⟨by decide, c7_extension_skip.2.1 false false true [] (by decide)⟩⟩

end Dlt

namespace Dlt

lemma split_first_chunk_one (b : Byte) (t : List Byte) :
    split_first_chunk 1 (b :: t) = .ok ([b], t) := by
  simp [split_first_chunk]

/-- The classification of a raw `message_info` byte performed at lib.rs line
220: `MessageInfo::from_raw((msin >> 1) & 0b111, (msin >> 4) & 0b1111)`. -/
def message_type_of (m : Byte) : MessageInfo :=
  MessageInfo.from_raw ((m.val >>> 1) &&& 7) ((m.val >>> 4) &&& 15)

lemma parse_extended_header_append (m n : Byte) (a c tail : List Byte)
    (ha : a.length = 4) (hc : c.length = 4) :
    parse_extended_header (m :: n :: (a ++ (c ++ tail))) =
      .ok ({ message_type := message_type_of m, noar := n,
             apid := strip_null a, ctid := strip_null c }, tail) := by
  unfold parse_extended_header
  rw [split_first_chunk_one]
  simp only [PRes.bind]
  rw [split_first_chunk_one]
  simp only [PRes.bind]
  rw [split_first_chunk_append (c ++ tail) ha]
  simp only [PRes.bind]
  rw [split_first_chunk_append tail hc]
  simp only [PRes.bind]
  simp [message_type_of]

set_option maxRecDepth 8192 in
/-- C8: the decoded message type is determined by bits 1–3 of the
`message_info` byte (0 → Log, 1 → ApplicationTrace, 2 → NetworkTrace,
3 → Control, other → Reserved); when the type is Log the level is
determined by bits 4–7 (1 → Fatal, 2 → Error, 3 → Warn, 4 → Info,
5 → Debug, 6 → Verbose, other → Reserved).  In particular type-bits 001
yield ApplicationTrace and type-bits 000 with type-info bits 0010 yield
Log(Error); and `parse_extended_header` stores exactly this classification
of its first input byte. -/
theorem c8_message_type_classification :
    (∀ m : Byte,
      message_type_of m =
        (if (m.val >>> 1) &&& 7 = 0 then
          MessageInfo.Log
            (if (m.val >>> 4) &&& 15 = 1 then .Fatal
             else if (m.val >>> 4) &&& 15 = 2 then .Error
             else if (m.val >>> 4) &&& 15 = 3 then .Warn
             else if (m.val >>> 4) &&& 15 = 4 then .Info
             else if (m.val >>> 4) &&& 15 = 5 then .Debug
             else if (m.val >>> 4) &&& 15 = 6 then .Verbose
             else .Reserved)
        else if (m.val >>> 1) &&& 7 = 1 then .AppTrace
        else if (m.val >>> 1) &&& 7 = 2 then .NwTrace
        else if (m.val >>> 1) &&& 7 = 3 then .Control
        else .Reserved)) ∧
    message_type_of 0x02 = .AppTrace ∧
    message_type_of 0x20 = .Log .Error ∧
    (∀ (m n : Byte) (a c tail : List Byte), a.length = 4 → c.length = 4 →
      parse_extended_header (m :: n :: (a ++ (c ++ tail))) =
        .ok ({ message_type := message_type_of m, noar := n,
               apid := strip_null a, ctid := strip_null c }, tail)) :=
  ⟨by decide, by decide, by decide, parse_extended_header_append⟩

/-- Witness for C8 at a concrete extended header: `msin = 0x20` is stored as
Log(Error). -/
theorem c8_message_type_classification_witness :
    ([65, 80, 73, 68] : List Byte).length = 4 ∧
    ([67, 84, 88, 0] : List Byte).length = 4 ∧
    parse_extended_header (0x20 :: 0x05 :: ([65, 80, 73, 68] ++ ([67, 84, 88, 0] ++ [9]))) =
      .ok ({ message_type := message_type_of 0x20, noar := 0x05,
             apid := strip_null [65, 80, 73, 68], ctid := strip_null [67, 84, 88, 0] }, [9]) :=
  ⟨by decide, by decide,
   c8_message_type_classification.2.2.2 0x20 0x05 [65, 80, 73, 68] [67, 84, 88, 0] [9]
     (by decide) (by decide)⟩

end Dlt

namespace Dlt

lemma take_succ_getD (l : List Byte) (k : Nat) (h : k < l.length) :
    l.take (k + 1) = l.take k ++ [l.getD k 0] := by
  rw [List.take_succ]
  simp [List.getD, List.getElem?_eq_getElem h]

lemma stripNullGo_closed (l : List Byte) :
    ∀ i, i ≤ l.length →
      stripNullGo l i =
        if (l.take i).all (· == 0) then l
        else ((l.take i).reverse.dropWhile (· == 0)).reverse := by
  intro i
  induction i with
  | zero =>
    intro _
    simp [stripNullGo]
  | succ k ih =>
    intro hk
    have hkl : k < l.length := by omega
    have htake := take_succ_getD l k hkl
    simp only [stripNullGo]
    by_cases hb : l.getD k 0 = 0
    · rw [if_neg (not_not_intro hb)]
      rw [ih (by omega), htake, hb]
      simp [List.all_append, List.reverse_append]
    · rw [if_pos hb]
      rw [htake]
      have hb2 : ¬(l[k]?.getD 0 = 0) := by
        simpa [List.getD] using hb
      have hcond : ¬((l.take k ++ [l.getD k 0]).all (· == 0)) = true := by
        simp [List.all_append]
        exact fun _ => hb2
      rw [if_neg hcond, List.reverse_append]
      simp [List.dropWhile_cons, hb2]

end Dlt

namespace Dlt

/-- C9: `strip_null` returns the prefix ending at the last non-zero byte
(inclusive); if all bytes are zero it returns the field unchanged; zero
bytes before the last non-zero byte are preserved; it has no failure mode
(it is a total function).  The closed form says exactly this: when not all
bytes are zero, the result is the input with its trailing zeros removed
(reverse, drop the leading zeros, reverse back). -/
theorem c9_strip_null :
    (∀ l : List Byte,
      strip_null l =
        if l.all (· == 0) then l else (l.reverse.dropWhile (· == 0)).reverse) ∧
    strip_null [0x41, 0x42, 0x43, 0x44, 0, 0] = [0x41, 0x42, 0x43, 0x44] ∧
    strip_null [0, 0, 0, 0] = [0, 0, 0, 0] ∧
    strip_null [0x41, 0, 0x42, 0] = [0x41, 0, 0x42] := by
  refine ⟨fun l => ?_, by decide, by decide, by decide⟩
  rw [strip_null, stripNullGo_closed l l.length le_rfl, List.take_length]

end Dlt

namespace Dlt

lemma storage_args_append {data : List Byte} (extra : List Byte) (h16 : 16 ≤ data.length) :
    storage_secs_arg (data ++ extra) = storage_secs_arg data ∧
    storage_nsecs_arg (data ++ extra) = storage_nsecs_arg data ∧
    (data ++ extra).take 4 = data.take 4 := by
  have hd4 : (data ++ extra).drop 4 = data.drop 4 ++ extra :=
    List.drop_append_of_le_length (by omega)
  have hd8 : (data ++ extra).drop 8 = data.drop 8 ++ extra :=
    List.drop_append_of_le_length (by omega)
  have ht8 : (data.drop 8 ++ extra).take 4 = (data.drop 8).take 4 :=
    List.take_append_of_le_length (by simp; omega)
  have ht4 : (data.drop 4 ++ extra).take 4 = (data.drop 4).take 4 :=
    List.take_append_of_le_length (by simp; omega)
  refine ⟨?_, ?_, List.take_append_of_le_length (by omega)⟩
  · rw [storage_secs_arg, storage_secs_arg, storage_micros_int, storage_micros_int,
      hd4, hd8, ht4, ht8]
  · rw [storage_nsecs_arg, storage_nsecs_arg, storage_micros_int, storage_micros_int, hd8, ht8]

lemma parse_message_bad_magic {data : List Byte} (h16 : 16 ≤ data.length)
    (hm : data.take 4 ≠ magic_pattern) :
    parse_message data =
      match from_timestamp (storage_secs_arg data) (storage_nsecs_arg data) with
      | some _ => .err .invalidMagic
      | none => .panic := by
  unfold parse_message
  rw [parse_storage_header_of_le h16]
  rcases hts : from_timestamp (storage_secs_arg data) (storage_nsecs_arg data) with _ | ts
  · rfl
  · simp only [PRes.bind]
    rw [if_pos hm]

end Dlt

namespace Dlt

/-- 16 zero bytes: wrong magic, storage header otherwise harmless. -/
def c5_buf_a : List Byte := List.replicate 16 0

/-- Same first 4 bytes as `c5_buf_a` (all zero, wrong magic) but with the
microseconds field set to `-1` (`0xffffffff` little-endian). -/
def c5_buf_b : List Byte :=
  List.replicate 8 0 ++ [0xff, 0xff, 0xff, 0xff] ++ List.replicate 4 0

/-- C5, counterexample: two buffers with identical (non-magic) first 4 bytes
decode to different failures — one to the InvalidMagic error, the other to a
panic in the timestamp `unwrap` — so the failure interprets bytes past the
first 4 and depends on them, contrary to the claim.  A 4-byte buffer with a
wrong magic fails with TruncatedInput, not InvalidMagic. -/
theorem c5_counterexample :
    c5_buf_a.take 4 = c5_buf_b.take 4 ∧
    c5_buf_a.take 4 ≠ magic_pattern ∧
    parse_message c5_buf_a = .err .invalidMagic ∧
    parse_message c5_buf_b = .panic ∧
    parse_message c5_buf_a ≠ parse_message c5_buf_b ∧
    parse_message [0, 0, 0, 0] = .err .truncatedInput := by
  decide

/-- C5 (amended): a wrong magic pattern is only reported after the whole
16-byte storage header has been decoded: the buffer must hold at least 16
bytes, and when the storage timestamp is representable the decode fails with
InvalidMagic, while an unrepresentable timestamp (negative microseconds)
panics first.  Bytes beyond the first 16 are never examined: appending
anything to the buffer does not change the result. -/
theorem c5_invalid_magic_after_storage (data extra : List Byte)
    (h16 : 16 ≤ data.length) (hm : data.take 4 ≠ magic_pattern) :
    parse_message (data ++ extra) = parse_message data ∧
    ((from_timestamp (storage_secs_arg data) (storage_nsecs_arg data)).isSome = true →
      parse_message data = .err .invalidMagic) ∧
    ((from_timestamp (storage_secs_arg data) (storage_nsecs_arg data)).isSome = false →
      parse_message data = .panic) := by
  obtain ⟨hsecs, hnsecs, htake⟩ := storage_args_append extra h16
  have h16' : 16 ≤ (data ++ extra).length := by
    simp only [List.length_append]
    omega
  have hm' : (data ++ extra).take 4 ≠ magic_pattern := by
    rw [htake]
    exact hm
  rw [parse_message_bad_magic h16' hm', parse_message_bad_magic h16 hm, hsecs, hnsecs]
  refine ⟨rfl, ?_, ?_⟩ <;>
      rcases hts : from_timestamp (storage_secs_arg data) (storage_nsecs_arg data) with _ | ts <;>
    simp [hts]

/-- Witness for C5 (amended) on 16 zero bytes with one extra byte appended. -/
theorem c5_invalid_magic_after_storage_witness :
    16 ≤ c5_buf_a.length ∧ c5_buf_a.take 4 ≠ magic_pattern ∧
    parse_message (c5_buf_a ++ [7]) = parse_message c5_buf_a ∧
    parse_message c5_buf_a = .err .invalidMagic :=
  ⟨by decide, by decide,
   (c5_invalid_magic_after_storage c5_buf_a [7] (by decide) (by decide)).1,
   (c5_invalid_magic_after_storage c5_buf_a [7] (by decide) (by decide)).2.1 (by decide)⟩

end Dlt

namespace Dlt

lemma parse_storage_header_append (p s m e tail : List Byte)
    (hp : p.length = 4) (hs : s.length = 4) (hm : m.length = 4) (he : e.length = 4) :
    parse_storage_header (p ++ (s ++ (m ++ (e ++ tail)))) =
      match from_timestamp
          (((u32_le s + u32_of_int (i32_of_u32 (u32_le m)) / 1000000) % 2 ^ 32 : Nat) : Int)
          (u32_of_int ((i32_of_u32 (u32_le m)).tmod 1000000 * 1000)) with
      | some ts => .ok ({ pattern := p, timestamp := ts, ecu := strip_null e }, tail)
      | none => .panic := by
  unfold parse_storage_header
  rw [split_first_chunk_append _ hp]
  simp only [PRes.bind]
  rw [split_first_chunk_append _ hs]
  simp only [PRes.bind]
  rw [split_first_chunk_append _ hm]
  simp only [PRes.bind]
  rw [split_first_chunk_append _ he]
  try simp only [PRes.bind]

/-- The little-endian 4-byte encoding of a `u32` value (inverse of
`u32_le`, used to build test records). -/
def le32 (w : Nat) : List Byte :=
  [⟨w % 256, Nat.mod_lt _ (by decide)⟩,
   ⟨w / 256 % 256, Nat.mod_lt _ (by decide)⟩,
   ⟨w / 65536 % 256, Nat.mod_lt _ (by decide)⟩,
   ⟨w / 16777216 % 256, Nat.mod_lt _ (by decide)⟩]

lemma le32_length (w : Nat) : (le32 w).length = 4 := rfl

lemma u32_le_le32 {w : Nat} (h : w < 2 ^ 32) : u32_le (le32 w) = w := by
  simp only [u32_le, le32]
  omega

lemma i32_of_u32_nonneg {w : Nat} (h : w < 2 ^ 31) : i32_of_u32 w = (w : Int) :=
  if_pos h

lemma u32_of_int_coe {w : Nat} (h : w < 2 ^ 32) : u32_of_int (w : Int) = w := by
  simp only [u32_of_int]
  omega

lemma tmod_coe (w n : Nat) : (w : Int).tmod (n : Int) = ((w % n : Nat) : Int) :=
  (Int.ofNat_tmod w n).symm

lemma tmod_coe_million (w : Nat) : (w : Int).tmod 1000000 = ((w % 1000000 : Nat) : Int) := by
  exact_mod_cast (Int.ofNat_tmod w 1000000).symm

end Dlt

namespace Dlt

/-- The storage header of the claim's example: seconds = 0,
microseconds = -1 (bytes `ff ff ff ff`), zero sender id. -/
def c6_buf : List Byte :=
  magic_pattern ++ (le32 0 ++ ([0xff, 0xff, 0xff, 0xff] ++ (List.replicate 4 0 ++ [])))

/-- C6, counterexample: with microseconds = -1 the claim predicts the
timestamp epoch - 1 microsecond, but `parse_storage_header` panics — the
negative microseconds wrap through the `as u32` cast into a nanosecond
argument chrono rejects, and the `.unwrap()` aborts. -/
theorem c6_counterexample : parse_storage_header c6_buf = .panic := by
  decide

/-- C6 (amended): for a non-negative microseconds value `u` the decoded
timestamp is epoch + `(s + u / 1000000) mod 2^32` whole seconds (the carry
wraps as `u32` addition) plus `(u mod 1000000) * 1000` nanoseconds; for a
negative microseconds value whose remainder mod 1000000 is non-zero the
decoder panics rather than producing a timestamp. -/
theorem c6_storage_timestamp :
    (∀ (s u : Nat) (e tail : List Byte), s < 2 ^ 32 → u < 2 ^ 31 → e.length = 4 →
      parse_storage_header (magic_pattern ++ (le32 s ++ (le32 u ++ (e ++ tail)))) =
        .ok ({ pattern := magic_pattern,
               timestamp := ⟨(((s + u / 1000000) % 2 ^ 32 : Nat) : Int), u % 1000000 * 1000⟩,
               ecu := strip_null e }, tail)) ∧
    (∀ (s u : Nat) (e tail : List Byte), s < 2 ^ 32 → 2 ^ 31 ≤ u → u < 2 ^ 32 →
      (i32_of_u32 u).tmod 1000000 ≠ 0 → e.length = 4 →
      parse_storage_header (magic_pattern ++ (le32 s ++ (le32 u ++ (e ++ tail)))) = .panic) := by
  constructor
  · intro s u e tail hs hu he
    rw [parse_storage_header_append magic_pattern (le32 s) (le32 u) e tail rfl rfl rfl he]
    rw [u32_le_le32 (by omega), u32_le_le32 (by omega), i32_of_u32_nonneg hu,
      u32_of_int_coe (by omega), tmod_coe_million]
    rw [show ((u % 1000000 : Nat) : Int) * 1000 = ((u % 1000000 * 1000 : Nat) : Int) by
      push_cast
      ring]
    rw [u32_of_int_coe (by omega)]
    rw [from_timestamp, if_pos (by omega)]
  · intro s u e tail hs hu1 hu2 ht he
    rw [parse_storage_header_append magic_pattern (le32 s) (le32 u) e tail rfl rfl rfl he]
    rw [u32_le_le32 (by omega), u32_le_le32 hu2]
    have hneg : i32_of_u32 u = (u : Int) - 2 ^ 32 := if_neg (by omega)
    have hk : (u : Int) - 2 ^ 32 = Int.negSucc (2 ^ 32 - u - 1) := by
      rw [Int.negSucc_eq]
      omega
    have htval : (i32_of_u32 u).tmod 1000000 =
        -(((2 ^ 32 - u - 1 + 1) % 1000000 : Nat) : Int) := by
      rw [hneg, hk]
      rfl
    have hr1 : 1 ≤ (2 ^ 32 - u - 1 + 1) % 1000000 := by
      rcases Nat.eq_zero_or_pos ((2 ^ 32 - u - 1 + 1) % 1000000) with h0 | h1
      · exfalso
        apply ht
        rw [htval, h0]
        simp
      · exact h1
    have hr2 : (2 ^ 32 - u - 1 + 1) % 1000000 < 1000000 := Nat.mod_lt _ (by decide)
    have hmod : ((i32_of_u32 u).tmod 1000000 * 1000) % 2 ^ 32 =
        2 ^ 32 - ((2 ^ 32 - u - 1 + 1) % 1000000 : Nat) * 1000 := by
      rw [htval]
      omega
    have hbig : 2000000000 ≤ u32_of_int ((i32_of_u32 u).tmod 1000000 * 1000) := by
      rw [u32_of_int, hmod]
      omega
    rw [from_timestamp, if_neg (by omega)]

/-- Witness for C6 (amended): seconds = 0, microseconds = 1500000 gives
epoch + 1 second + 500000000 nanoseconds (the claim's 1.5-second example),
and microseconds = -1 (`0xffffffff`) panics. -/
theorem c6_storage_timestamp_witness :
    ((0 : Nat) < 2 ^ 32 ∧ (1500000 : Nat) < 2 ^ 31 ∧
     (List.replicate 4 (0 : Byte)).length = 4 ∧
     parse_storage_header (magic_pattern ++ (le32 0 ++ (le32 1500000 ++ (List.replicate 4 0 ++ [7])))) =
       .ok ({ pattern := magic_pattern, timestamp := ⟨1, 500000000⟩,
              ecu := strip_null (List.replicate 4 0) }, [7])) ∧
    ((i32_of_u32 0xffffffff).tmod 1000000 ≠ 0 ∧
     parse_storage_header (magic_pattern ++ (le32 0 ++ (le32 0xffffffff ++ (List.replicate 4 0 ++ [7])))) =
       .panic) := by
  constructor
  · refine ⟨by decide, by decide, by decide, ?_⟩
    have h := c6_storage_timestamp.1 0 1500000 (List.replicate 4 0) [7]
      (by decide) (by decide) (by decide)
    simpa using h
  · refine ⟨by decide, ?_⟩
    exact c6_storage_timestamp.2 0 0xffffffff (List.replicate 4 0) [7]
      (by decide) (by decide) (by decide) (by decide) (by decide)

end Dlt

namespace Dlt

lemma main_parse_extended_header_short {data : List Byte} (h : data.length < 10) :
    Main.parse_extended_header data = .err .truncatedInput := by
  have hl1 : (data.drop 1).length = data.length - 1 := by simp
  have hl2 : (data.drop 2).length = data.length - 2 := by simp
  have hl3 : (data.drop 6).length = data.length - 6 := by simp
  unfold Main.parse_extended_header
  by_cases h1 : 1 ≤ data.length
  · rw [split_first_chunk_of_le h1]
    simp only [PRes.bind]
    by_cases h2 : 2 ≤ data.length
    · rw [split_first_chunk_of_le (by omega)]
      simp only [PRes.bind, List.drop_drop]
      norm_num
      by_cases h3 : 6 ≤ data.length
      · rw [split_first_chunk_of_le (by omega)]
        simp only [PRes.bind, List.drop_drop]
        norm_num
        rw [split_first_chunk_short (by omega)]
        try rfl
      · rw [split_first_chunk_short (by omega)]
        try rfl
    · rw [split_first_chunk_short (by omega)]
      try rfl
  · rw [split_first_chunk_short (by omega)]
    try rfl

/-- The extra classification step the library copy performs on top of the
main.rs copy: turn the raw `msin` byte into a `MessageInfo` with the exact
expression of lib.rs line 220. -/
def liftExt (e : Main.ExtendedHeader) : ExtendedHeader :=
  { message_type := MessageInfo.from_raw ((e.msin.val >>> 1) &&& 7) ((e.msin.val >>> 4) &&& 15),
    noar := e.noar, apid := e.apid, ctid := e.ctid }

/-- Lift a main.rs `Message` to a library `Message` by classifying the raw
`msin` byte of the extended header (if present); all other fields are
unchanged. -/
def liftMain (m : Main.Message) : Message :=
  { storage_header := m.storage_header, standard_header := m.standard_header,
    extended_header := m.extended_header.map liftExt, payload := m.payload }

lemma parse_extended_header_equiv (d : List Byte) :
    parse_extended_header d = (Main.parse_extended_header d).map fun p => (liftExt p.1, p.2) := by
  by_cases h : 10 ≤ d.length
  · rw [parse_extended_header_of_le h, main_parse_extended_header_of_le h]
    rfl
  · rw [parse_extended_header_short (by omega), main_parse_extended_header_short (by omega)]
    rfl

end Dlt

namespace Dlt

/-- C10: the two copies of the decoder are equivalent on every input buffer:
the main.rs copy and the library copy succeed, fail and panic together, and
on success they return equal storage headers, standard headers, argument
counts, identifiers, payloads and remainders — the only difference being
that the library copy classifies the raw `msin` byte through
`MessageInfo::from_raw` (the `liftMain` embedding). -/
theorem c10_parse_message_equiv (data : List Byte) :
    parse_message data = (Main.parse_message data).map fun p => (liftMain p.1, p.2) := by
  unfold parse_message Main.parse_message
  rcases hS : parse_storage_header data with ⟨sh, d1⟩ | eS | _ <;>
    simp only [PRes.bind, PRes.map]
  by_cases hmg : sh.pattern ≠ magic_pattern
  · simp only [if_pos hmg]
  · simp only [if_neg hmg]
    rcases hT : parse_standard_header d1 with ⟨sth, d2⟩ | eT | _ <;>
      simp only [PRes.bind, PRes.map]
    by_cases hmsb : sth.htyp.val &&& 0x02 ≠ 0
    · simp only [if_pos hmsb]
    · simp only [if_neg hmsb]
      rcases hX : parse_extensions (sth.htyp.val &&& 0x04 != 0)
          (sth.htyp.val &&& 0x08 != 0) (sth.htyp.val &&& 0x10 != 0) d2 with
        ⟨uu, d3⟩ | eX | _ <;>
        simp only [PRes.bind, PRes.map]
      rw [parse_extended_header_equiv d3]
      by_cases hE1 : (sth.htyp.val &&& 0x01 != 0) = true
      · simp only [if_pos hE1]
        rcases hE : Main.parse_extended_header d3 with ⟨me, d4⟩ | eE | _ <;>
          simp only [PRes.bind, PRes.map]
        by_cases h6 : 6 ≤ d4.length
        · simp only [if_pos h6]
          split
          · simp [PRes.map, liftMain, liftExt]
          · rfl
        · simp only [if_neg h6]
      · simp only [if_neg hE1]
        try simp only [PRes.bind]
        by_cases h6 : 6 ≤ d3.length
        · simp only [if_pos h6]
          split
          · simp [PRes.map, liftMain]
          · rfl
        · simp only [if_neg h6]

end Dlt

namespace Dlt

/-- The big-endian 2-byte encoding of a `u16` value (inverse of `u16_be`). -/
def be16 (w : Nat) : List Byte :=
  [⟨w / 256 % 256, Nat.mod_lt _ (by decide)⟩, ⟨w % 256, Nat.mod_lt _ (by decide)⟩]

lemma be16_length (w : Nat) : (be16 w).length = 2 := rfl

lemma u16_be_be16 {w : Nat} (h : w < 65536) : u16_be (be16 w) = w := by
  simp only [u16_be, be16]
  omega

lemma parse_standard_header_cons (h c : Byte) (l tail : List Byte) (hl : l.length = 2) :
    parse_standard_header (h :: (c :: (l ++ tail))) =
      .ok ({ htyp := h, mcnt := c, len := u16_be l }, tail) := by
  unfold parse_standard_header
  rw [split_first_chunk_one]
  simp only [PRes.bind]
  rw [split_first_chunk_one]
  simp only [PRes.bind]
  rw [split_first_chunk_append _ hl]
  simp only [PRes.bind, List.headD]

lemma parse_extensions_append {e s t : Bool} {x : List Byte} (tail : List Byte)
    (hx : x.length = ext_bytes e s t) :
    parse_extensions e s t (x ++ tail) = .ok ((), tail) := by
  rw [parse_extensions_of_le (by simp [← hx])]
  rw [← hx, List.drop_left]

lemma parse_extensions_flags (c1 c2 c3 : Bool) (l1 l2 l3 R : List Byte)
    (h1 : l1.length = 4) (h2 : l2.length = 4) (h3 : l3.length = 4) :
    parse_extensions c1 c2 c3
      ((if c1 then l1 else []) ++ ((if c2 then l2 else []) ++ ((if c3 then l3 else []) ++ R))) =
      .ok ((), R) := by
  have hassoc :
      (if c1 then l1 else []) ++ ((if c2 then l2 else []) ++ ((if c3 then l3 else []) ++ R)) =
        ((if c1 then l1 else []) ++ ((if c2 then l2 else []) ++ (if c3 then l3 else []))) ++ R := by
    simp [List.append_assoc]
  rw [hassoc]
  apply parse_extensions_append
  simp only [List.length_append, apply_ite List.length, h1, h2, h3, List.length_nil, ext_bytes]
  omega

/-- The raw fields of one validly constructed record: storage-header words,
standard-header bytes, optional extension contents, optional extended-header
fields, the 6 reserved bytes and the payload.  `total_length` is computed
from the flags so that it is consistent with the present optional headers
and payload, as the claim requires. -/
structure RecordDesc where
  seconds : Nat
  microseconds : Nat
  ecu : List Byte
  htyp : Byte
  mcnt : Byte
  ecu_ext : List Byte
  session_ext : List Byte
  timestamp_ext : List Byte
  msin : Byte
  noar : Byte
  apid : List Byte
  ctid : List Byte
  reserved : List Byte
  payload : List Byte
deriving DecidableEq

/-- The consistent `total_length` of a record: standard header (4) +
extension skips + optional extended header (10) + reserved (6) + payload. -/
def RecordDesc.total_length (d : RecordDesc) : Nat :=
  4 + ext_bytes (d.htyp.val &&& 0x04 != 0) (d.htyp.val &&& 0x08 != 0) (d.htyp.val &&& 0x10 != 0) +
    (if d.htyp.val &&& 0x01 != 0 then 10 else 0) + 6 + d.payload.length

/-- Serialize a record description to wire bytes, with the valid magic
pattern and the computed `total_length`. -/
def encodeRecord (d : RecordDesc) : List Byte :=
  magic_pattern ++ le32 d.seconds ++ le32 d.microseconds ++ d.ecu ++
  [d.htyp, d.mcnt] ++ be16 d.total_length ++
  (if d.htyp.val &&& 0x04 != 0 then d.ecu_ext else []) ++
  (if d.htyp.val &&& 0x08 != 0 then d.session_ext else []) ++
  (if d.htyp.val &&& 0x10 != 0 then d.timestamp_ext else []) ++
  (if d.htyp.val &&& 0x01 != 0 then [d.msin, d.noar] ++ d.apid ++ d.ctid else []) ++
  d.reserved ++ d.payload

/-- The timestamp a record description decodes to (the storage-header
arithmetic of `parse_storage_header` applied to the description's words). -/
def desc_timestamp (d : RecordDesc) : Timestamp :=
  (from_timestamp
      (((d.seconds + u32_of_int (i32_of_u32 d.microseconds) / 1000000) % 2 ^ 32 : Nat) : Int)
      (u32_of_int ((i32_of_u32 d.microseconds).tmod 1000000 * 1000))).getD ⟨0, 0⟩

/-- Well-formedness of a record description: in-range words, 4-byte
identifier and extension fields, 6 reserved bytes, big-endian-payload flag
clear, `total_length` in `u16` range, and a storage timestamp that chrono
accepts (the microseconds constraint the code imposes through its
`unwrap`). -/
def ValidDesc (d : RecordDesc) : Prop :=
  d.seconds < 2 ^ 32 ∧ d.microseconds < 2 ^ 32 ∧
  d.ecu.length = 4 ∧ d.ecu_ext.length = 4 ∧ d.session_ext.length = 4 ∧
  d.timestamp_ext.length = 4 ∧ d.apid.length = 4 ∧ d.ctid.length = 4 ∧
  d.reserved.length = 6 ∧ d.htyp.val &&& 0x02 = 0 ∧ d.total_length ≤ 65535 ∧
  (from_timestamp
      (((d.seconds + u32_of_int (i32_of_u32 d.microseconds) / 1000000) % 2 ^ 32 : Nat) : Int)
      (u32_of_int ((i32_of_u32 d.microseconds).tmod 1000000 * 1000))).isSome = true

/-- The `Message` a validly constructed record decodes to: every header
field equals the constructed input (identifier fields through
`strip_null`, the timestamp through the storage arithmetic, the raw
`msin` byte through the message-type classification). -/
def expectedMessage (d : RecordDesc) : Message :=
  { storage_header := { pattern := magic_pattern, timestamp := desc_timestamp d,
                        ecu := strip_null d.ecu },
    standard_header := { htyp := d.htyp, mcnt := d.mcnt, len := d.total_length },
    extended_header :=
      if d.htyp.val &&& 0x01 != 0 then
        some { message_type := message_type_of d.msin, noar := d.noar,
               apid := strip_null d.apid, ctid := strip_null d.ctid }
      else none,
    payload := d.payload }

end Dlt

namespace Dlt

/-- Decoding one validly constructed record followed by any remainder
succeeds and returns exactly the expected message and the untouched
remainder. -/
theorem parse_message_encode (d : RecordDesc) (rest : List Byte) (hv : ValidDesc d) :
    parse_message (encodeRecord d ++ rest) = .ok (expectedMessage d, rest) := by
  obtain ⟨hsec, hmic, hecu, hecuext, hsess, htsext, hapid, hctid, hres, hmsb0, hTle, hts⟩ := hv
  have h10 : ([d.msin, d.noar] ++ d.apid ++ d.ctid).length = 10 := by
    simp [hapid, hctid]
  have hBlen : (encodeRecord d ++ rest).length = d.total_length + 16 + rest.length := by
    simp only [encodeRecord, RecordDesc.total_length, List.length_append, h10,
      apply_ite List.length, List.length_nil, le32_length, be16_length, List.length_cons,
      hecu, hecuext, hsess, htsext, hres, magic_pattern, ext_bytes]
    omega
  unfold parse_message
  simp only [encodeRecord, List.append_assoc, List.cons_append, List.nil_append] at hBlen ⊢
  rw [parse_storage_header_append magic_pattern (le32 d.seconds) (le32 d.microseconds) d.ecu _
    rfl rfl rfl hecu]
  rw [u32_le_le32 hsec, u32_le_le32 hmic]
  rcases hts0 : from_timestamp
      (((d.seconds + u32_of_int (i32_of_u32 d.microseconds) / 1000000) % 2 ^ 32 : Nat) : Int)
      (u32_of_int ((i32_of_u32 d.microseconds).tmod 1000000 * 1000)) with _ | ts
  · rw [hts0] at hts
    simp at hts
  dsimp only
  simp only [PRes.bind]
  rw [if_neg (not_not_intro rfl)]
  rw [parse_standard_header_cons d.htyp d.mcnt (be16 d.total_length) _ (be16_length _)]
  simp only [PRes.bind]
  rw [u16_be_be16 (by omega)]
  dsimp only
  rw [if_neg (not_not_intro hmsb0)]
  rw [parse_extensions_flags _ _ _ d.ecu_ext d.session_ext d.timestamp_ext _
    hecuext hsess htsext]
  simp only [PRes.bind]
  by_cases hE1 : (d.htyp.val &&& 0x01 != 0) = true
  · simp only [if_pos hE1] at hBlen ⊢
    simp only [List.cons_append, List.append_assoc] at hBlen ⊢
    rw [parse_extended_header_append d.msin d.noar d.apid d.ctid _ hapid hctid]
    simp only [PRes.map, PRes.bind]
    rw [List.drop_left' hres]
    have hPR : (d.payload ++ rest).length = d.payload.length + rest.length := by simp
    have hD5 : (d.reserved ++ (d.payload ++ rest)).length =
        6 + (d.payload.length + rest.length) := by
      simp [hres]
    have hT2 : d.payload.length + 10 ≤ d.total_length := by
      simp only [RecordDesc.total_length]
      omega
    cases hf1 : (d.htyp.val &&& 0x04 != 0) <;>
      cases hf2 : (d.htyp.val &&& 0x08 != 0) <;>
        cases hf3 : (d.htyp.val &&& 0x10 != 0) <;>
          simp only [hf1, hf2, hf3, Bool.false_eq_true, if_false, if_true, eq_self_iff_true,
            List.nil_append] at hBlen ⊢
    all_goals
      ((split <;> try (exfalso; omega));
       (split <;> try (exfalso; omega));
       simp only [PRes.ok.injEq, Prod.mk.injEq];
       refine ⟨?_, List.drop_left' (by omega)⟩;
       simp only [expectedMessage, desc_timestamp, hts0, Option.getD_some, if_pos hE1,
         Message.mk.injEq, eq_self_iff_true, true_and, and_true];
       exact List.take_left' (by omega))
  · simp only [if_neg hE1] at hBlen ⊢
    try simp only [List.nil_append] at hBlen ⊢
    try simp only [PRes.bind]
    rw [List.drop_left' hres]
    have hPR : (d.payload ++ rest).length = d.payload.length + rest.length := by simp
    have hD5 : (d.reserved ++ (d.payload ++ rest)).length =
        6 + (d.payload.length + rest.length) := by
      simp [hres]
    have hT2 : d.payload.length + 10 ≤ d.total_length := by
      simp only [RecordDesc.total_length]
      omega
    cases hf1 : (d.htyp.val &&& 0x04 != 0) <;>
      cases hf2 : (d.htyp.val &&& 0x08 != 0) <;>
        cases hf3 : (d.htyp.val &&& 0x10 != 0) <;>
          simp only [hf1, hf2, hf3, Bool.false_eq_true, if_false, if_true, eq_self_iff_true,
            List.nil_append] at hBlen ⊢
    all_goals
      ((split <;> try (exfalso; omega));
       (split <;> try (exfalso; omega));
       simp only [PRes.ok.injEq, Prod.mk.injEq];
       refine ⟨?_, List.drop_left' (by omega)⟩;
       simp only [expectedMessage, desc_timestamp, hts0, Option.getD_some, if_neg hE1,
         Message.mk.injEq, eq_self_iff_true, true_and, and_true];
       exact List.take_left' (by omega))

end Dlt

namespace Dlt

lemma encodeRecord_ne_nil (d : RecordDesc) : encodeRecord d ≠ [] := by
  simp [encodeRecord, magic_pattern]

lemma decode_all_go_encode (rs : List RecordDesc) :
    ∀ fuel : Nat, (∀ r ∈ rs, ValidDesc r) →
      ((rs.map encodeRecord).flatten).length ≤ fuel →
      decode_all_go fuel ((rs.map encodeRecord).flatten) = .ok (rs.map expectedMessage) := by
  induction rs with
  | nil =>
    intro fuel _ _
    cases fuel <;> rfl
  | cons r rs ih =>
    intro fuel hv hfuel
    have hvr : ValidDesc r := hv r (by simp)
    have hvs : ∀ x ∈ rs, ValidDesc x := fun x hx => hv x (by simp [hx])
    have hne : encodeRecord r ≠ [] := encodeRecord_ne_nil r
    have hpos : 0 < (encodeRecord r).length := List.length_pos.mpr hne
    simp only [List.map_cons, List.flatten_cons] at hfuel ⊢
    have hlen : 1 ≤ (encodeRecord r ++ (rs.map encodeRecord).flatten).length := by
      simp only [List.length_append]
      omega
    cases fuel with
    | zero =>
      omega
    | succ f =>
      obtain ⟨b, bs, hEnc⟩ := List.exists_cons_of_ne_nil hne
      rw [hEnc, List.cons_append]
      simp only [decode_all_go]
      rw [← List.cons_append, ← hEnc, parse_message_encode r _ hvr]
      try dsimp only
      rw [ih f hvs (by
        simp only [List.length_append] at hfuel
        omega)]
      rfl

/-- C3 (amended): decoding a concatenation of N validly constructed records
— valid magic, byte-order flag clear, consistent `total_length`, and a
storage timestamp the decoder can represent — consumes the buffer exactly
and yields exactly the N expected records, field for field. -/
theorem c3_concat_roundtrip (rs : List RecordDesc) (hv : ∀ r ∈ rs, ValidDesc r) :
    decode_all ((rs.map encodeRecord).flatten) = .ok (rs.map expectedMessage) :=
  decode_all_go_encode rs _ hv le_rfl

instance ValidDesc.decidable (d : RecordDesc) : Decidable (ValidDesc d) := by
  unfold ValidDesc
  infer_instance

/-- A record that satisfies every validity condition the claim lists (valid
magic via the encoder, byte-order flag clear, consistent `total_length`)
but whose microseconds word is `-1`. -/
def c3_desc_bad : RecordDesc :=
  { seconds := 0, microseconds := 0xffffffff, ecu := [69, 67, 85, 0], htyp := 0, mcnt := 0,
    ecu_ext := [0, 0, 0, 0], session_ext := [0, 0, 0, 0], timestamp_ext := [0, 0, 0, 0],
    msin := 0, noar := 0, apid := [0, 0, 0, 0], ctid := [0, 0, 0, 0],
    reserved := [0, 0, 0, 0, 0, 0], payload := [] }

/-- C3, counterexample: a single record with valid magic, byte-order flag
clear and consistent `total_length`, but with microseconds `-1`, makes the
driver panic instead of yielding the one decoded record, so the claim's
validity conditions are not sufficient. -/
theorem c3_counterexample :
    c3_desc_bad.htyp.val &&& 0x02 = 0 ∧
    decode_all (encodeRecord c3_desc_bad) = .panic ∧
    decode_all (encodeRecord c3_desc_bad) ≠ .ok [expectedMessage c3_desc_bad] := by
  decide

/-- Two concrete valid records for the C3 witness: one with an extended
header and a 2-byte payload, one with a sender-id extension. -/
def c3_d1 : RecordDesc :=
  { seconds := 1, microseconds := 1500000, ecu := [69, 67, 85, 0], htyp := 0x01, mcnt := 7,
    ecu_ext := [0, 0, 0, 0], session_ext := [0, 0, 0, 0], timestamp_ext := [0, 0, 0, 0],
    msin := 0x02, noar := 1, apid := [65, 80, 49, 0], ctid := [67, 49, 0, 0],
    reserved := [0, 0, 0, 0, 0, 0], payload := [72, 105] }

def c3_d2 : RecordDesc :=
  { seconds := 2, microseconds := 0, ecu := [69, 67, 85, 50], htyp := 0x04, mcnt := 8,
    ecu_ext := [1, 2, 3, 4], session_ext := [0, 0, 0, 0], timestamp_ext := [0, 0, 0, 0],
    msin := 0, noar := 0, apid := [0, 0, 0, 0], ctid := [0, 0, 0, 0],
    reserved := [9, 9, 9, 9, 9, 9], payload := [33] }

/-- Witness for C3 (amended) on a concrete 2-record buffer. -/
theorem c3_concat_roundtrip_witness :
    (∀ r ∈ [c3_d1, c3_d2], ValidDesc r) ∧
    decode_all (([c3_d1, c3_d2].map encodeRecord).flatten) =
      .ok ([c3_d1, c3_d2].map expectedMessage) :=
  ⟨by decide, c3_concat_roundtrip [c3_d1, c3_d2] (by decide)⟩

end Dlt
